import Mathlib

/-!
# Outray tunnel client (packages/go-plugin/outray.go): session engine and request proxy

A shallow embedding of the Go client.  Every method of `Client` becomes a
function from the client state (and the answers of the outside world it
consults: dial results, local HTTP call results, ...) to the new client state
and the list of externally visible effects it performs, in program order.

Conventions
* Go `string` is `String`, `[]byte` is `List Byte`, `int` is `Int` (with
  explicit 64-bit wrap-around where the code does arithmetic on it),
  `time.Duration` is an `Int` number of nanoseconds.
* A callback hook of `Options` is recorded as "installed or nil"; calling it
  is an `Event` carrying the arguments.
* Logging is not an observable effect of the model.
* Each method runs to completion on the state it is given (one interleaving).
-/

namespace Outray

/-! ## Data model -/

/-- One octet. -/
abbrev Byte := Fin 256

/-- Nanoseconds, as Go's `time.Duration`. -/
abbrev Duration := Int

/-- Go's `time.Second`. -/
def second : Duration := 1000000000

/-- Identity of an open websocket connection (`*websocket.Conn`, non-nil). -/
abbrev Conn := Nat

/-- A Go channel of the client (`chan struct{}`): only whether it was closed is tracked. -/
inductive Chan where
  | opened
  | closed
  deriving DecidableEq

/-- A `*time.Ticker`: only whether `Stop` was called on it is tracked. -/
inductive Ticker where
  | running
  | stopped
  deriving DecidableEq

/-- RequestInfo contains information about a proxied request. -/
structure RequestInfo where
  Method : String
  Path : String
  StatusCode : Int
  Elapsed : Duration
  Error : String
  deriving DecidableEq

/-- Options configures the client.  The five hooks are kept as
"installed" flags (`true` when the Go field is non-nil). -/
structure Options where
  LocalPort : Int
  ServerURL : String
  APIKey : String
  Subdomain : String
  CustomDomain : String
  Protocol : String
  RemotePort : Int
  OnTunnelReady : Bool
  OnRequest : Bool
  OnError : Bool
  OnReconnecting : Bool
  OnClose : Bool
  deriving DecidableEq

/-- The tunnel client: the mutable session fields of the Go struct. -/
structure Client where
  options : Options
  conn : Option Conn
  shouldReconnect : Bool
  assignedURL : String
  subdomain : String
  forceTakeover : Bool
  reconnectAttempts : Int
  lastPongReceived : Nat
  stopChan : Option Chan
  doneChan : Option Chan
  pingTicker : Option Ticker
  deriving DecidableEq

/-- Outbound handshake, `open_tunnel`. -/
structure openTunnelMessage where
  MsgType : String
  APIKey : String
  Subdomain : String
  CustomDomain : String
  ForceTakeover : Bool
  Protocol : String
  RemotePort : Int
  deriving DecidableEq

/-- Inbound `tunnel_opened`. -/
structure tunnelOpenedMessage where
  MsgType : String
  TunnelID : String
  URL : String
  Plan : String
  Protocol : String
  Port : Int
  deriving DecidableEq

/-- Inbound `error`. -/
structure errorMessage where
  MsgType : String
  Code : String
  Message : String
  deriving DecidableEq

/-- A decoded JSON value held in the empty-interface slot of a request header
map, as far as the type switches of `handleRequest` look into it: a string,
an array (each item a string, or `none` for an item of another type), or
anything else (number, bool, null, object). -/
inductive JsonValue where
  | str (s : String)
  | arr (items : List (Option String))
  | other
  deriving DecidableEq

/-- Inbound `request`.  `Headers` lists the entries of the Go map in the
order the runtime iterates them. -/
structure requestMessage where
  MsgType : String
  RequestID : String
  Method : String
  Path : String
  Headers : List (String × JsonValue)
  Body : String
  deriving DecidableEq

/-- The value stored under a response header key: a Go `string` (single
value) or a `[]string`. -/
inductive HeaderValue where
  | single (v : String)
  | multi (vs : List String)
  deriving DecidableEq

/-- Outbound `response`.  `Headers` is the Go map as an association list
with pairwise distinct keys. -/
structure responseMessage where
  MsgType : String
  RequestID : String
  StatusCode : Int
  Headers : List (String × HeaderValue)
  Body : String
  deriving DecidableEq

/-- The errors `Start` can return, by the place that creates them. -/
inductive StartError where
  | localPortRequired
  | failedToConnect (cause : String)
  | handshakeWrite (cause : String)
  deriving DecidableEq

/-- Externally visible effects, in program order. -/
inductive Event where
  | dial (serverURL : String)
  | writeHandshake (conn : Conn) (msg : openTunnelMessage)
  | writeResponse (conn : Conn) (msg : responseMessage)
  | closeConn (conn : Conn)
  | closeStopChan
  | stopTicker
  | awaitDone
  | goPingLoop
  | goMessageLoop
  | goHandleRequest (req : requestMessage)
  | sendMessage (msg : responseMessage)
  | onTunnelReady (url : String) (port : Int)
  | onRequest (info : RequestInfo)
  | onError (message : String) (code : String)
  | onReconnecting (attempt : Int) (delay : Duration)
  | sleep (delay : Duration)
  deriving DecidableEq

/-- How far a call got: it returned; it blocks on a channel receive; the Go
runtime panicked; or it is still waiting for an answer of the outside world
that the given answers do not contain. -/
inductive Fate where
  | returned
  | blocked
  | panicked
  | pending
  deriving DecidableEq

/-- What the outside world answers to one `connect()`: the dial fails, the
dial succeeds and the handshake write fails, or both succeed.  `now` is the
clock reading stored in `lastPongReceived`. -/
inductive ConnectOutcome where
  | dialFailed (cause : String)
  | handshakeFailed (conn : Conn) (now : Nat) (cause : String)
  | connected (conn : Conn) (now : Nat)
  deriving DecidableEq

/-! ## Construction and accessors -/

/-- The default server URL. -/
def DefaultServerURL : String := "wss://api.outray.dev/"

/-- New creates a client: defaults are applied from the environment
(`getenv` is `os.Getenv`), every other session field has its zero value. -/
def New (getenv : String → String) (now : Nat) (opts : Options) : Client :=
  let serverURL :=
    if opts.ServerURL = "" then
      (if getenv "OUTRAY_SERVER_URL" = "" then DefaultServerURL else getenv "OUTRAY_SERVER_URL")
    else opts.ServerURL
  let apiKey := if opts.APIKey = "" then getenv "OUTRAY_API_KEY" else opts.APIKey
  let sub := if opts.Subdomain = "" then getenv "OUTRAY_SUBDOMAIN" else opts.Subdomain
  let proto := if opts.Protocol = "" then "http" else opts.Protocol
  let o : Options :=
    { opts with ServerURL := serverURL, APIKey := apiKey, Subdomain := sub, Protocol := proto }
  { options := o
    conn := none
    shouldReconnect := true
    assignedURL := ""
    subdomain := o.Subdomain
    forceTakeover := false
    reconnectAttempts := 0
    lastPongReceived := now
    stopChan := none
    doneChan := none
    pingTicker := none }

/-- URL returns the assigned tunnel URL field. -/
def Client.URL (c : Client) : String := c.assignedURL

/-- IsConnected is `c.conn != nil`. -/
def Client.IsConnected (c : Client) : Bool := c.conn.isSome

/-! ## Connecting -/

/-- The handshake message `sendHandshake` builds from the session. -/
def Client.openTunnel (c : Client) : openTunnelMessage :=
  { MsgType := "open_tunnel"
    APIKey := c.options.APIKey
    Subdomain := c.subdomain
    CustomDomain := c.options.CustomDomain
    ForceTakeover := c.forceTakeover
    Protocol := c.options.Protocol
    RemotePort := c.options.RemotePort }

/-- Send the handshake on the current connection: the frame handed to
`conn.WriteMessage`, and the error the write answers with, if any. -/
def Client.sendHandshake (c : Client) (conn : Conn) (writeErr : Option String) :
    Option StartError × List Event :=
  (writeErr.map StartError.handshakeWrite, [Event.writeHandshake conn c.openTunnel])

/-- The ping starter: replace the ticker (stopping a previous one) and spawn the ping loop. -/
def Client.startPing (c : Client) : Client × List Event :=
  ({ c with pingTicker := some Ticker.running },
    (if c.pingTicker.isSome then [Event.stopTicker] else []) ++ [Event.goPingLoop])

/-- One `connect()`: dial, store the connection, send the handshake, start the
ping loop and the message loop. -/
def Client.connect (c : Client) (o : ConnectOutcome) : Option StartError × Client × List Event :=
  match o with
  | .dialFailed cause =>
      (some (.failedToConnect cause), c, [Event.dial c.options.ServerURL])
  | .handshakeFailed conn now cause =>
      let c1 := { c with conn := some conn, lastPongReceived := now }
      let (err, ev) := c1.sendHandshake conn (some cause)
      (err, c1, [Event.dial c.options.ServerURL] ++ ev ++ [Event.closeConn conn])
  | .connected conn now =>
      let c1 := { c with conn := some conn, lastPongReceived := now }
      let (_, ev) := c1.sendHandshake conn none
      let (c2, evPing) := c1.startPing
      (none, c2, [Event.dial c.options.ServerURL] ++ ev ++ evPing ++ [Event.goMessageLoop])

/-- Start initiates the tunnel connection. -/
def Client.Start (c : Client) (o : ConnectOutcome) : Option StartError × Client × List Event :=
  if c.options.LocalPort = 0 then
    (some .localPortRequired, c, [])
  else
    let c1 := { c with shouldReconnect := true, stopChan := some Chan.opened,
                       doneChan := some Chan.opened }
    c1.connect o

/-- Stop closes the tunnel connection.  Closing an already closed stop
channel panics (inside the locked section); the final receive on the done
channel returns only if the channel is nil or has been closed. -/
def Client.Stop (c : Client) : Client × List Event × Fate :=
  let c1 := { c with shouldReconnect := false }
  if c1.stopChan = some Chan.closed then (c1, [], Fate.panicked)
  else
    let evStop := if c1.stopChan.isSome then [Event.closeStopChan] else []
    let evTick := if c1.pingTicker.isSome then [Event.stopTicker] else []
    let evConn := match c1.conn with
      | some conn => [Event.closeConn conn]
      | none => []
    let c2 := { c1 with
      stopChan := c1.stopChan.map (fun _ => Chan.closed)
      pingTicker := c1.pingTicker.map (fun _ => Ticker.stopped) }
    if c2.doneChan = none then (c2, evStop ++ evTick ++ evConn, Fate.returned)
    else if c2.doneChan = some Chan.closed then
      (c2, evStop ++ evTick ++ evConn ++ [Event.awaitDone], Fate.returned)
    else (c2, evStop ++ evTick ++ evConn ++ [Event.awaitDone], Fate.blocked)

/-! ## Inbound messages -/

/-- A received text frame after the JSON decoding steps of `handleMessage`:
`malformed` when the first `json.Unmarshal` (the `type` discriminator) fails;
for the three known types the payload is `none` when the second
`json.Unmarshal` into the typed struct fails. -/
inductive Inbound where
  | malformed
  | tunnelOpened (m : Option tunnelOpenedMessage)
  | error (m : Option errorMessage)
  | request (m : Option requestMessage)
  | unknown (msgType : String)
  deriving DecidableEq

/-- Go's `strings.Split(s, sep)` for a one-character separator, on the
characters of `s`: the pieces between the separators (always at least one). -/
def splitOnChar (sep : Char) : List Char → List (List Char)
  | [] => [[]]
  | c :: cs =>
      if c = sep then [] :: splitOnChar sep cs
      else
        match splitOnChar sep cs with
        | [] => [[c]]
        | p :: ps => (c :: p) :: ps

/-- Go's `strings.Split(s, ".")`. -/
def stringsSplitDot (s : String) : List String :=
  (splitOnChar '.' s.data).map String.mk

/-- The subdomain of a tunnel URL.  `urlHostname u` stands for `url.Parse(u)` followed by
`Hostname()`: `none` when the parse fails. -/
def extractSubdomain (urlHostname : String → Option String) (tunnelURL : String) : String :=
  match urlHostname tunnelURL with
  | none => ""
  | some host =>
      match stringsSplitDot host with
      | p :: _ => p
      | [] => ""

/-- Handle a server `error` message.  The hook receives `fmt.Errorf(message)`
and the code; the event records `message` (the format string) and the code. -/
def Client.handleError (c : Client) (code message : String) : Client × List Event × Fate :=
  if code = "SUBDOMAIN_IN_USE" ∧ c.assignedURL ≠ "" ∧ c.forceTakeover = false then
    let c1 := { c with forceTakeover := true }
    let evConn := match c1.conn with
      | some conn => [Event.closeConn conn]
      | none => []
    (c1, evConn, Fate.returned)
  else
    let evHook := if c.options.OnError then [Event.onError message code] else []
    if code = "AUTH_FAILED" ∨ code = "LIMIT_EXCEEDED" then
      let c1 := { c with shouldReconnect := false }
      let r := c1.Stop
      (r.1, evHook ++ r.2.1, r.2.2)
    else
      (c, evHook, Fate.returned)

/-- Dispatch one received frame. -/
def Client.handleMessage (urlHostname : String → Option String) (c : Client) (data : Inbound) :
    Client × List Event × Fate :=
  match data with
  | .malformed => (c, [], Fate.returned)
  | .tunnelOpened none => (c, [], Fate.returned)
  | .tunnelOpened (some tunnelMsg) =>
      let c1 := { c with assignedURL := tunnelMsg.URL, forceTakeover := false,
                         reconnectAttempts := 0 }
      let subdomain := extractSubdomain urlHostname tunnelMsg.URL
      let c2 := if subdomain ≠ "" then { c1 with subdomain := subdomain } else c1
      let evHook :=
        if c.options.OnTunnelReady then [Event.onTunnelReady tunnelMsg.URL tunnelMsg.Port] else []
      (c2, evHook, Fate.returned)
  | .error none => (c, [], Fate.returned)
  | .error (some errMsg) => c.handleError errMsg.Code errMsg.Message
  | .request none => (c, [], Fate.returned)
  | .request (some reqMsg) => (c, [Event.goHandleRequest reqMsg], Fate.returned)
  | .unknown _ => (c, [], Fate.returned)

/-! ## Disconnect handling and backoff -/

/-- Go `int` arithmetic on a 64-bit platform: wrap into `[-2^63, 2^63)`. -/
def wrapInt (x : Int) : Int := (x + 2 ^ 63) % 2 ^ 64 - 2 ^ 63

/-- The reconnect delay
`time.Duration(math.Min(float64(2*time.Second)*math.Pow(2, float64(attempts)), float64(30*time.Second)))`.
For `attempts ≥ 0` every float64 operation is exact (`2e9 = 2^10 * 5^9`, a
product with a power of two is exact, and it overflows to `+Inf` only far
above the cap), so the value is the integer minimum.  For negative
`attempts` (reachable only through wrap-around of the counter) the product
is the exact quotient `2e9 / 2^(-attempts)`, truncated by the conversion. -/
def backoffDelay (attempts : Int) : Duration :=
  if 0 ≤ attempts then min (2 * second * 2 ^ attempts.toNat) (30 * second)
  else (2 * second) / 2 ^ (-attempts).toNat

/-- Handle a lost connection.  `outs` are the answers of the outside world to
the successive `connect()` calls this invocation makes (a failed reconnect
recurses).  When the answers run out the call is still inside `connect()`:
the state reached so far is given with fate `pending`. -/
def Client.handleDisconnect (c : Client) (outs : List ConnectOutcome) :
    Client × List Event × Fate :=
  let evTick := if c.pingTicker.isSome then [Event.stopTicker] else []
  let c1 := { c with pingTicker := c.pingTicker.map (fun _ => Ticker.stopped), conn := none }
  if c1.shouldReconnect = false then (c1, evTick, Fate.returned)
  else
    let c2 := if c1.assignedURL ≠ "" then { c1 with forceTakeover := true } else c1
    let attempts := c2.reconnectAttempts
    let c3 := { c2 with reconnectAttempts := wrapInt (attempts + 1) }
    let delay := backoffDelay attempts
    let evHook :=
      if c.options.OnReconnecting then [Event.onReconnecting (wrapInt (attempts + 1)) delay]
      else []
    let ev := evTick ++ evHook ++ [Event.sleep delay]
    if c3.shouldReconnect then
      let c4 := { c3 with doneChan := some Chan.opened }
      match outs with
      | [] => (c4, ev, Fate.pending)
      | o :: rest =>
          match c4.connect o with
          | (none, c5, ev5) => (c5, ev ++ ev5, Fate.returned)
          | (some _, c5, ev5) =>
              let r := c5.handleDisconnect rest
              (r.1, ev ++ ev5 ++ r.2.1, r.2.2)
    else (c3, ev, Fate.returned)

/-! ## Runs of the session -/

/-- One thing that happens to the session. -/
inductive Step where
  | message (data : Inbound)
  | disconnect (outs : List ConnectOutcome)
  | start (o : ConnectOutcome)
  | stop
  deriving DecidableEq

/-- The session after one step, and the effects of the step. -/
def Client.step (urlHostname : String → Option String) (c : Client) : Step → Client × List Event
  | .message data =>
      ((c.handleMessage urlHostname data).1, (c.handleMessage urlHostname data).2.1)
  | .disconnect outs => ((c.handleDisconnect outs).1, (c.handleDisconnect outs).2.1)
  | .start o => ((c.Start o).2.1, (c.Start o).2.2)
  | .stop => (c.Stop.1, c.Stop.2.1)

/-- The session after a sequence of steps. -/
def Client.run (urlHostname : String → Option String) (c : Client) (steps : List Step) : Client :=
  steps.foldl (fun s st => (s.step urlHostname st).1) c

/-- The effects of a sequence of steps, in order. -/
def Client.trace (urlHostname : String → Option String) (c : Client) : List Step → List Event
  | [] => []
  | s :: rest => (c.step urlHostname s).2 ++ Client.trace urlHostname (c.step urlHostname s).1 rest

/-- The step "an `error` message with code SUBDOMAIN_IN_USE and this text is handled". -/
def subdomainInUse (message : String) : Step :=
  Step.message (Inbound.error (some { MsgType := "error", Code := "SUBDOMAIN_IN_USE",
                                       Message := message }))

/-- The handshake messages written in an effect list. -/
def handshakes : List Event → List openTunnelMessage
  | [] => []
  | Event.writeHandshake _ m :: rest => m :: handshakes rest
  | _ :: rest => handshakes rest

/-- The (attempt, delay) pairs reported to the reconnecting hook in an effect list. -/
def reconnectReports : List Event → List (Int × Duration)
  | [] => []
  | Event.onReconnecting a d :: rest => (a, d) :: reconnectReports rest
  | _ :: rest => reconnectReports rest

/-- The (message, code) pairs given to the error hook in an effect list. -/
def errorReports : List Event → List (String × String)
  | [] => []
  | Event.onError m k :: rest => (m, k) :: errorReports rest
  | _ :: rest => errorReports rest

/-- The session `handleDisconnect` has reached when it calls `connect()`
(should-reconnect being true): ticker stopped, connection cleared, takeover
flag raised if a URL is assigned, counter incremented, fresh done channel. -/
def Client.backoffState (c : Client) : Client :=
  { c with
    pingTicker := c.pingTicker.map (fun _ => Ticker.stopped)
    conn := none
    forceTakeover := if c.assignedURL ≠ "" then true else c.forceTakeover
    reconnectAttempts := wrapInt (c.reconnectAttempts + 1)
    doneChan := some Chan.opened }

/-- The effects of `handleDisconnect` up to that point. -/
def Client.backoffEvents (c : Client) : List Event :=
  (if c.pingTicker.isSome then [Event.stopTicker] else []) ++
  (if c.options.OnReconnecting then
      [Event.onReconnecting (wrapInt (c.reconnectAttempts + 1)) (backoffDelay c.reconnectAttempts)]
    else []) ++
  [Event.sleep (backoffDelay c.reconnectAttempts)]

/-- A `connect()` answer that makes `connect()` return an error. -/
def ConnectOutcome.failed : ConnectOutcome → Bool
  | .connected _ _ => false
  | _ => true

/-- A dial was attempted in this effect list. -/
def dialed (ev : List Event) : Bool :=
  ev.any (fun e => match e with
    | Event.dial _ => true
    | _ => false)

/-- The answers to the `connect()` calls of one `handleDisconnect` run that
returns: every reconnect fails except the last one, which succeeds. -/
def endsConnected : List ConnectOutcome → Bool
  | [] => false
  | [o] => !o.failed
  | o :: rest => o.failed && endsConnected rest

/-- A step that neither resets nor stops the counting of consecutive
failures: a transport failure whose reconnects end with a success, or a
message that is not a `tunnel_opened` and not an `error` with a fatal code. -/
def Step.keepsCounting : Step → Bool
  | .disconnect outs => endsConnected outs
  | .message (.tunnelOpened (some _)) => false
  | .message (.error (some errMsg)) =>
      !(decide (errMsg.Code = "AUTH_FAILED") || decide (errMsg.Code = "LIMIT_EXCEEDED"))
  | .message _ => true
  | .start _ => false
  | .stop => false

/-- The number of failures in a sequence of steps: each transport failure
counts once for the lost connection and once for every failed reconnect,
which is the number of `connect()` answers it consumes. -/
def failureCount : List Step → Nat
  | [] => 0
  | .disconnect outs :: rest => outs.length + failureCount rest
  | _ :: rest => failureCount rest

/-- A step that is a call of `Start`. -/
def Step.isStart : Step → Bool
  | .start _ => true
  | _ => false

/-! ## Base64 (Go's `encoding/base64`, `StdEncoding`)

The standard alphabet of RFC 4648 with `=` padding, non-strict decoding that
skips `\r` and `\n`.  Shifts and masks on disjoint bit fields are written as
multiplications, divisions and remainders. -/

/-- The encoding alphabet (`encodeStd`). -/
def encodeStd : List Char :=
  "ABCDEFGHIJKLMNOPQRSTUVWXYZabcdefghijklmnopqrstuvwxyz0123456789+/".data

/-- The table lookup `enc.encode[n]`, for `n < 64`. -/
def encodeSextet (n : Nat) : Char := encodeStd.getD n 'A'

/-- The table lookup `enc.decodeMap[in]`: the position of the character in the alphabet,
`none` for the table's `0xff` entries. -/
def decodeSextet (ch : Char) : Option Nat :=
  if encodeStd.indexOf ch < 64 then some (encodeStd.indexOf ch) else none

/-- Go's `Encode`: three bytes become four characters; a final group of one or
two bytes is padded with `=`. -/
def encodeChars : List Byte → List Char
  | [] => []
  | [a] =>
      let val := a.val * 65536
      [encodeSextet (val / 262144 % 64), encodeSextet (val / 4096 % 64), '=', '=']
  | [a, b] =>
      let val := a.val * 65536 + b.val * 256
      [encodeSextet (val / 262144 % 64), encodeSextet (val / 4096 % 64),
        encodeSextet (val / 64 % 64), '=']
  | a :: b :: c :: rest =>
      let val := a.val * 65536 + b.val * 256 + c.val
      encodeSextet (val / 262144 % 64) :: encodeSextet (val / 4096 % 64) ::
        encodeSextet (val / 64 % 64) :: encodeSextet (val % 64) :: encodeChars rest

/-- Go's `base64.StdEncoding.EncodeToString`. -/
def EncodeToString (src : List Byte) : String := String.mk (encodeChars src)

/-- The byte `byte(x)` of an unsigned value. -/
def toByte (x : Nat) : Byte := ⟨x % 256, Nat.mod_lt _ (by decide)⟩

/-- The bytes a decoded quantum yields: `dbuf` holds the 2, 3 or 4 sextets read
(`dlen`), and `dlen - 1` bytes of the 24-bit value are written. -/
def quantumBytes (dbuf : List Nat) : List Byte :=
  let val := dbuf.getD 0 0 * 262144 + dbuf.getD 1 0 * 4096 + dbuf.getD 2 0 * 64 + dbuf.getD 3 0
  ([toByte (val / 65536), toByte (val / 256), toByte val]).take (dbuf.length - 1)

/-- Skip `\n` and `\r`; the offset advances with the characters skipped. -/
def skipNewlines : List Char → Nat → List Char × Nat
  | [], si => ([], si)
  | ch :: rest, si =>
      if ch = '\n' ∨ ch = '\r' then skipNewlines rest (si + 1) else (ch :: rest, si)

/-- After the padding of the last quantum: skip newlines; anything left is
trailing garbage (`CorruptInputError(si)`). -/
def finishPadding (rest : List Char) (si : Nat) (dbuf : List Nat) : Except Nat (List Byte) :=
  match skipNewlines rest si with
  | ([], _) => Except.ok (quantumBytes dbuf)
  | (_ :: _, si1) => Except.error si1

/-- Go's `Decode` on the characters left, at byte offset `si`, with the sextets
`dbuf` of the current quantum already read.  The error is the offset of a
`CorruptInputError`. -/
def decodeChars : List Char → Nat → List Nat → Except Nat (List Byte)
  | [], si, dbuf => if dbuf.length = 0 then Except.ok [] else Except.error (si - dbuf.length)
  | ch :: rest, si, dbuf =>
      match decodeSextet ch with
      | some out =>
          if dbuf.length = 3 then
            match decodeChars rest (si + 1) [] with
            | Except.ok tl => Except.ok (quantumBytes (dbuf ++ [out]) ++ tl)
            | Except.error e => Except.error e
          else decodeChars rest (si + 1) (dbuf ++ [out])
      | none =>
          if ch = '\n' ∨ ch = '\r' then decodeChars rest (si + 1) dbuf
          else if ch ≠ '=' then Except.error si
          else if dbuf.length < 2 then Except.error si
          else if dbuf.length = 2 then
            match skipNewlines rest (si + 1) with
            | ([], si1) => Except.error si1
            | (ch2 :: rest2, si1) =>
                if ch2 ≠ '=' then Except.error (si1 - 1)
                else finishPadding rest2 (si1 + 1) dbuf
          else finishPadding rest (si + 1) dbuf

/-- Go's `base64.StdEncoding.DecodeString`. -/
def DecodeString (s : String) : Except Nat (List Byte) := decodeChars s.data 0 []

/-- The text of a `base64.CorruptInputError`. -/
def corruptInputText (offset : Nat) : String :=
  "illegal base64 data at input byte " ++ toString offset

/-- The conversion `[]byte(s)`: the UTF-8 bytes of the string. -/
def stringBytes (s : String) : List Byte :=
  (s.data.flatMap String.utf8EncodeChar).map (fun b => b.val)

/-! ## Go maps as association lists -/

/-- The map read `m[k]`. -/
def mapGet {α : Type} (m : List (String × α)) (k : String) : Option α :=
  match m with
  | [] => none
  | (k1, v1) :: rest => if k1 = k then some v1 else mapGet rest k

/-- The map write `m[k] = v`. -/
def mapSet {α : Type} (m : List (String × α)) (k : String) (v : α) : List (String × α) :=
  match m with
  | [] => [(k, v)]
  | (k1, v1) :: rest => if k1 = k then (k, v) :: rest else (k1, v1) :: mapSet rest k v

/-! ## The request proxy -/

/-- The `*http.Request` handed to the local server: the method, URL and body
given to `http.NewRequest`, and the header map after the header loop. -/
structure HttpRequest where
  Method : String
  URL : String
  Body : Option (List Byte)
  Header : List (String × List String)
  deriving DecidableEq

/-- A local `*http.Response`: status and `resp.Header`, the entries of the
header map in the order the runtime iterates them (keys pairwise distinct). -/
structure LocalResponse where
  StatusCode : Int
  Header : List (String × List String)
  deriving DecidableEq

/-- What the local call answers: `client.Do` fails; it succeeds and
`io.ReadAll` of the body fails; or both succeed.  `elapsed` is the
`time.Since(startTime)` measured on that path. -/
inductive LocalOutcome where
  | doFailed (err : String) (elapsed : Duration)
  | readFailed (resp : LocalResponse) (err : String)
  | ok (resp : LocalResponse) (bodyBytes : List Byte) (elapsed : Duration)
  deriving DecidableEq

/-- The library functions and the local server `handleRequest` consults:
`newRequestError method url` is the error text of `http.NewRequest`, if it
fails; `canonicalKey` is the key canonicalisation of `http.Header`;
`roundTrip` is `client.Do` followed by `io.ReadAll`; `toLower` is
`strings.ToLower`. -/
structure ProxyEnv where
  newRequestError : String → String → Option String
  canonicalKey : String → String
  roundTrip : HttpRequest → LocalOutcome
  toLower : String → String

/-- Go's `httpReq.Header.Set(key, v)`. -/
def headerSet (canonicalKey : String → String) (h : List (String × List String))
    (key v : String) : List (String × List String) :=
  mapSet h (canonicalKey key) [v]

/-- Go's `httpReq.Header.Add(key, v)`. -/
def headerAdd (canonicalKey : String → String) (h : List (String × List String))
    (key v : String) : List (String × List String) :=
  mapSet h (canonicalKey key) (((mapGet h (canonicalKey key)).getD []) ++ [v])

/-- The header loop of `handleRequest`: a string value is set, the string
items of an array are added in order, any other value is skipped. -/
def applyHeaders (canonicalKey : String → String) (h : List (String × List String))
    (headers : List (String × JsonValue)) : List (String × List String) :=
  headers.foldl
    (fun acc kv =>
      match kv.2 with
      | JsonValue.str v => headerSet canonicalKey acc kv.1 v
      | JsonValue.arr items =>
          items.foldl
            (fun acc2 hv =>
              match hv with
              | some sv => headerAdd canonicalKey acc2 kv.1 sv
              | none => acc2)
            acc
      | JsonValue.other => acc)
    h

/-- The value the response header loop stores for the values of one header:
`values[0]` when there is exactly one, the list otherwise. -/
def responseHeaderValue (values : List String) : HeaderValue :=
  if values.length = 1 then HeaderValue.single (values.headD "") else HeaderValue.multi values

/-- The response header loop: each entry of `resp.Header` is stored under its
lower-cased key. -/
def buildResponseHeaders (toLower : String → String) (header : List (String × List String)) :
    List (String × HeaderValue) :=
  header.foldl (fun headers kv => mapSet headers (toLower kv.1) (responseHeaderValue kv.2)) []

/-- Hand a message to the connection: written if a connection is set,
otherwise the "not connected" error (which every caller discards). -/
def Client.sendMessage (c : Client) (msg : responseMessage) : List Event :=
  Event.sendMessage msg ::
    (match c.conn with
      | some conn => [Event.writeResponse conn msg]
      | none => [])

/-- Build and send an error response. -/
def Client.sendErrorResponse (c : Client) (requestID : String) (statusCode : Int)
    (message : String) : List Event :=
  c.sendMessage
    { MsgType := "response"
      RequestID := requestID
      StatusCode := statusCode
      Headers := [("content-type", HeaderValue.single "text/plain")]
      Body := EncodeToString (stringBytes message) }

/-- The local URL `http://localhost:<port><path>`. -/
def Client.localURL (c : Client) (req : requestMessage) : String :=
  "http://localhost:" ++ toString c.options.LocalPort ++ req.Path

/-- The request body reader: nil when the message has no body, otherwise the
decoded bytes, or the decode error. -/
def decodeBody (body : String) : Except Nat (Option (List Byte)) :=
  if body ≠ "" then
    match DecodeString body with
    | Except.ok decoded => Except.ok (some decoded)
    | Except.error e => Except.error e
  else Except.ok none

/-- The local request after the header loop. -/
def Client.localRequest (env : ProxyEnv) (c : Client) (req : requestMessage)
    (body : Option (List Byte)) : HttpRequest :=
  { Method := req.Method
    URL := c.localURL req
    Body := body
    Header := applyHeaders env.canonicalKey [] req.Headers }

/-- The message of the success path. -/
def successResponse (env : ProxyEnv) (req : requestMessage) (resp : LocalResponse)
    (bodyBytes : List Byte) : responseMessage :=
  { MsgType := "response"
    RequestID := req.RequestID
    StatusCode := resp.StatusCode
    Headers := buildResponseHeaders env.toLower resp.Header
    Body := if bodyBytes.length > 0 then EncodeToString bodyBytes else "" }

/-- Proxy one tunneled request to the local server.  `c` is the client as the
send step finds it. -/
def Client.handleRequest (env : ProxyEnv) (c : Client) (req : requestMessage) : List Event :=
  match decodeBody req.Body with
  | Except.error e =>
      c.sendErrorResponse req.RequestID 502 ("Failed to decode body: " ++ corruptInputText e)
  | Except.ok body =>
      match env.newRequestError req.Method (c.localURL req) with
      | some err => c.sendErrorResponse req.RequestID 502 ("Failed to create request: " ++ err)
      | none =>
          match env.roundTrip (c.localRequest env req body) with
          | LocalOutcome.doFailed err elapsed =>
              (if c.options.OnRequest then
                [Event.onRequest { Method := req.Method, Path := req.Path, StatusCode := 502,
                                   Elapsed := elapsed, Error := err }]
               else []) ++
              c.sendErrorResponse req.RequestID 502 ("Bad Gateway: " ++ err)
          | LocalOutcome.readFailed _ err =>
              c.sendErrorResponse req.RequestID 502 ("Failed to read response: " ++ err)
          | LocalOutcome.ok resp bodyBytes elapsed =>
              (if c.options.OnRequest then
                [Event.onRequest { Method := req.Method, Path := req.Path,
                                   StatusCode := resp.StatusCode, Elapsed := elapsed,
                                   Error := "" }]
               else []) ++
              c.sendMessage (successResponse env req resp bodyBytes)

/-- The `body` field on the wire: omitted (`omitempty`) when the string is empty. -/
def responseMessage.wireBody (m : responseMessage) : Option String :=
  if m.Body = "" then none else some m.Body

/-- The messages handed to `sendMessage` in an effect list. -/
def sentMessages : List Event → List responseMessage
  | [] => []
  | Event.sendMessage m :: rest => m :: sentMessages rest
  | _ :: rest => sentMessages rest

/-- The per-request hook calls in an effect list. -/
def requestReports : List Event → List RequestInfo
  | [] => []
  | Event.onRequest info :: rest => info :: requestReports rest
  | _ :: rest => requestReports rest

/-! ## Sample inputs for the concrete checks -/

/-- A configuration with every hook installed. -/
def sampleOptions : Options :=
  { LocalPort := 8080
    ServerURL := ""
    APIKey := ""
    Subdomain := "myapp"
    CustomDomain := ""
    Protocol := ""
    RemotePort := 0
    OnTunnelReady := true
    OnRequest := true
    OnError := true
    OnReconnecting := true
    OnClose := true }

/-- A fresh client for `sampleOptions`, with an empty environment. -/
def sampleClient : Client := New (fun _ => "") 0 sampleOptions

/-- The answers of `url.Parse` and `Hostname()` on the URLs of the samples:
`https://myapp.outray.dev` has host `myapp.outray.dev`, the empty URL parses
to an empty host, and `://bad` fails to parse (missing protocol scheme). -/
def sampleHostname (u : String) : Option String :=
  if u = "https://myapp.outray.dev" then some "myapp.outray.dev"
  else if u = "" then some ""
  else none

/-- Go's `strings.ToLower` on ASCII text: `A`..`Z` become `a`..`z`. -/
def lowerASCII (s : String) : String := String.mk (s.data.map Char.toLower)

/-- A proxy environment in which the request is built, the local server
answers 200 and reading its body fails. -/
def sampleEnv : ProxyEnv :=
  { newRequestError := fun _ _ => none
    canonicalKey := fun k => k
    roundTrip := fun _ => LocalOutcome.readFailed { StatusCode := 200, Header := [] } "unexpected EOF"
    toLower := lowerASCII }

/-- A proxy environment whose local server answers 200 with the given header
map (in the given iteration order) and the two-byte body `ok`. -/
def sampleEnvHeaders (header : List (String × List String)) : ProxyEnv :=
  { newRequestError := fun _ _ => none
    canonicalKey := fun k => k
    roundTrip := fun _ =>
      LocalOutcome.ok { StatusCode := 200, Header := header }
        [⟨111, by decide⟩, ⟨107, by decide⟩] 5
    toLower := lowerASCII }

/-- A proxy environment whose local server answers 200 with one
`Content-Type` header and the 15 bytes of the JSON text `{"status":"ok"}`. -/
def sampleEnvHealth : ProxyEnv :=
  { newRequestError := fun _ _ => none
    canonicalKey := fun k => k
    roundTrip := fun _ =>
      LocalOutcome.ok { StatusCode := 200, Header := [("Content-Type", ["application/json"])] }
        [⟨123, by decide⟩, ⟨34, by decide⟩, ⟨115, by decide⟩, ⟨116, by decide⟩,
         ⟨97, by decide⟩, ⟨116, by decide⟩, ⟨117, by decide⟩, ⟨115, by decide⟩,
         ⟨34, by decide⟩, ⟨58, by decide⟩, ⟨34, by decide⟩, ⟨111, by decide⟩,
         ⟨107, by decide⟩, ⟨34, by decide⟩, ⟨125, by decide⟩] 5
    toLower := lowerASCII }

/-- A `GET /health` request without a body. -/
def sampleRequest : requestMessage :=
  { MsgType := "request"
    RequestID := "r1"
    Method := "GET"
    Path := "/health"
    Headers := []
    Body := "" }

/-- A `tunnel_opened` message for `https://myapp.outray.dev`. -/
def sampleOpened : tunnelOpenedMessage :=
  { MsgType := "tunnel_opened"
    TunnelID := "t1"
    URL := "https://myapp.outray.dev"
    Plan := ""
    Protocol := "http"
    Port := 0 }

/-! ## Theorems -/

/-- C1: when LocalPort is 0, Start returns the "LocalPort is required" error,
performs no effect at all (in particular no dial) and leaves the whole
session (conn, shouldReconnect, stopChan, doneChan, ...) as it was; when
LocalPort is non-zero, whatever the dial answers, the error returned is not
"LocalPort is required". -/
theorem C1_start_requires_local_port (c : Client) (o : ConnectOutcome) :
    (c.options.LocalPort = 0 →
        c.Start o = (some StartError.localPortRequired, c, []) ∧
        dialed (c.Start o).2.2 = false ∧
        (c.Start o).2.1.conn = c.conn ∧
        (c.Start o).2.1.shouldReconnect = c.shouldReconnect ∧
        (c.Start o).2.1.stopChan = c.stopChan ∧
        (c.Start o).2.1.doneChan = c.doneChan) ∧
    (c.options.LocalPort ≠ 0 →
        (c.Start o).1 ≠ some StartError.localPortRequired ∧
        dialed (c.Start o).2.2 = true) := by
  constructor
  · intro h
    simp [Client.Start, h, dialed]
  · intro h
    cases o <;> simp [Client.Start, h, Client.connect, Client.sendHandshake, dialed]

/-- C1 at concrete inputs: a client without a local port, and the sample
client (port 8080) whose dial is refused. -/
theorem C1_start_requires_local_port_witness :
    (({ sampleClient with options := { sampleOptions with LocalPort := 0 } } : Client).Start
      (ConnectOutcome.connected 1 0)).1 = some StartError.localPortRequired ∧
    (sampleClient.Start (ConnectOutcome.dialFailed "refused")).1 ≠
      some StartError.localPortRequired :=
  ⟨by rw [((C1_start_requires_local_port
        ({ sampleClient with options := { sampleOptions with LocalPort := 0 } } : Client)
        (ConnectOutcome.connected 1 0)).1 rfl).1],
   ((C1_start_requires_local_port sampleClient (ConnectOutcome.dialFailed "refused")).2
      (by decide)).1⟩

/-! ### Effect-list bookkeeping -/

theorem reconnectReports_append (a b : List Event) :
    reconnectReports (a ++ b) = reconnectReports a ++ reconnectReports b := by
  induction a with
  | nil => rfl
  | cons e rest ih => cases e <;> simp [reconnectReports, ih]

theorem handshakes_append (a b : List Event) :
    handshakes (a ++ b) = handshakes a ++ handshakes b := by
  induction a with
  | nil => rfl
  | cons e rest ih => cases e <;> simp [handshakes, ih]

theorem errorReports_append (a b : List Event) :
    errorReports (a ++ b) = errorReports a ++ errorReports b := by
  induction a with
  | nil => rfl
  | cons e rest ih => cases e <;> simp [errorReports, ih]

theorem dialed_append (a b : List Event) : dialed (a ++ b) = (dialed a || dialed b) := by
  simp [dialed, List.any_append]

/-! ### What `connect` touches -/

theorem connect_fields (c : Client) (o : ConnectOutcome) :
    (c.connect o).2.1.options = c.options ∧
    (c.connect o).2.1.shouldReconnect = c.shouldReconnect ∧
    (c.connect o).2.1.assignedURL = c.assignedURL ∧
    (c.connect o).2.1.subdomain = c.subdomain ∧
    (c.connect o).2.1.forceTakeover = c.forceTakeover ∧
    (c.connect o).2.1.reconnectAttempts = c.reconnectAttempts := by
  cases o <;> simp [Client.connect, Client.sendHandshake, Client.startPing]

theorem connect_reports (c : Client) (o : ConnectOutcome) :
    reconnectReports (c.connect o).2.2 = [] := by
  cases o <;>
    simp [Client.connect, Client.sendHandshake, Client.startPing, reconnectReports]
  split <;> simp [reconnectReports]

theorem connect_error_iff (c : Client) (o : ConnectOutcome) :
    (c.connect o).1 = none ↔ o.failed = false := by
  cases o <;> simp [Client.connect, Client.sendHandshake, ConnectOutcome.failed]

theorem connect_handshakes (c : Client) (o : ConnectOutcome) :
    ∀ m ∈ handshakes (c.connect o).2.2, m.ForceTakeover = c.forceTakeover := by
  cases o <;>
    simp [Client.connect, Client.sendHandshake, Client.startPing, handshakes, Client.openTunnel]
  split <;> simp [handshakes]

/-! ### Backoff -/

theorem wrapInt_of_range (x : Int) (h0 : -(2 ^ 63) ≤ x) (h1 : x < 2 ^ 63) : wrapInt x = x := by
  unfold wrapInt
  have h : (x + 2 ^ 63) % 2 ^ 64 = x + 2 ^ 63 := Int.emod_eq_of_lt (by omega) (by omega)
  omega

theorem backoffDelay_nat (n : Nat) :
    backoffDelay (n : Int) = min (2 * second * 2 ^ n) (30 * second) := by
  simp [backoffDelay]

theorem backoffDelay_mono (m n : Nat) (h : m ≤ n) :
    backoffDelay (m : Int) ≤ backoffDelay (n : Int) := by
  rw [backoffDelay_nat, backoffDelay_nat]
  apply min_le_min _ le_rfl
  apply mul_le_mul_of_nonneg_left _ (by decide)
  exact pow_le_pow_right₀ (by decide) h

theorem handleDisconnect_stopped (c : Client) (outs : List ConnectOutcome)
    (hs : c.shouldReconnect = false) :
    c.handleDisconnect outs =
      ({ c with pingTicker := c.pingTicker.map (fun _ => Ticker.stopped), conn := none },
        (if c.pingTicker.isSome then [Event.stopTicker] else []), Fate.returned) := by
  cases outs <;> simp [Client.handleDisconnect, hs]

theorem handleDisconnect_nil (c : Client) (hs : c.shouldReconnect = true) :
    c.handleDisconnect [] = (c.backoffState, c.backoffEvents, Fate.pending) := by
  by_cases hu : c.assignedURL = "" <;>
    simp [Client.handleDisconnect, hs, hu, Client.backoffState, Client.backoffEvents]

theorem handleDisconnect_cons (c : Client) (o : ConnectOutcome) (rest : List ConnectOutcome)
    (hs : c.shouldReconnect = true) :
    c.handleDisconnect (o :: rest) =
      if o.failed then
        (((c.backoffState.connect o).2.1.handleDisconnect rest).1,
          c.backoffEvents ++ (c.backoffState.connect o).2.2 ++
            ((c.backoffState.connect o).2.1.handleDisconnect rest).2.1,
          ((c.backoffState.connect o).2.1.handleDisconnect rest).2.2)
      else
        ((c.backoffState.connect o).2.1, c.backoffEvents ++ (c.backoffState.connect o).2.2,
          Fate.returned) := by
  rw [Client.handleDisconnect]
  by_cases hu : c.assignedURL = "" <;> cases o <;>
    simp [hs, hu, Client.backoffState, Client.backoffEvents, Client.connect,
      Client.sendHandshake, Client.startPing, ConnectOutcome.failed]

theorem backoffState_fields (c : Client) :
    c.backoffState.options = c.options ∧
    c.backoffState.shouldReconnect = c.shouldReconnect ∧
    c.backoffState.assignedURL = c.assignedURL ∧
    c.backoffState.subdomain = c.subdomain ∧
    c.backoffState.reconnectAttempts = wrapInt (c.reconnectAttempts + 1) := by
  simp [Client.backoffState]

theorem backoffEvents_reports (c : Client) (h : c.options.OnReconnecting = true) :
    reconnectReports c.backoffEvents =
      [(wrapInt (c.reconnectAttempts + 1), backoffDelay c.reconnectAttempts)] := by
  unfold Client.backoffEvents
  split <;> simp [h, reconnectReports]

/-- Consecutive failed reconnects of one `handleDisconnect` call: starting
from counter `n`, with `fails` failing `connect()` answers followed by a
successful one, the call returns, the reconnecting hook receives
`(n+1, delay n), (n+2, delay (n+1)), ...` in this order, and the counter ends
at `n + fails.length + 1`. -/
theorem handleDisconnect_failures (fails : List ConnectOutcome) :
    ∀ (c : Client) (n : Nat) (conn : Conn) (now : Nat),
      (∀ o ∈ fails, o.failed = true) →
      c.reconnectAttempts = (n : Int) →
      c.shouldReconnect = true →
      c.options.OnReconnecting = true →
      ((n + fails.length + 1 : Nat) : Int) < 2 ^ 63 →
      (c.handleDisconnect (fails ++ [ConnectOutcome.connected conn now])).2.2 = Fate.returned ∧
      reconnectReports (c.handleDisconnect (fails ++ [ConnectOutcome.connected conn now])).2.1 =
        (List.range (fails.length + 1)).map
          (fun i => (((n + i + 1 : Nat) : Int), backoffDelay ((n + i : Nat) : Int))) ∧
      (c.handleDisconnect (fails ++ [ConnectOutcome.connected conn now])).1.reconnectAttempts =
        ((n + fails.length + 1 : Nat) : Int) := by
  induction fails with
  | nil =>
      intro c n conn now _ hc hs hh hk
      have hw : wrapInt ((n : Int) + 1) = (n : Int) + 1 :=
        wrapInt_of_range _ (by omega) (by push_cast at hk; omega)
      rw [List.nil_append, handleDisconnect_cons c _ _ hs]
      have hcf := connect_fields c.backoffState (ConnectOutcome.connected conn now)
      simp [ConnectOutcome.failed, reconnectReports_append, connect_reports,
        backoffEvents_reports c hh, hc, hw, hcf, backoffState_fields, List.range_succ]
  | cons o rest ih =>
      intro c n conn now hf hc hs hh hk
      have hw : wrapInt ((n : Int) + 1) = (n : Int) + 1 :=
        wrapInt_of_range _ (by omega) (by push_cast at hk; omega)
      have hof : o.failed = true := hf o (List.mem_cons_self _ _)
      have hcf := connect_fields c.backoffState o
      have hbf := backoffState_fields c
      have hrec := ih (c.backoffState.connect o).2.1 (n + 1) conn now
        (fun o' ho' => hf o' (List.mem_cons_of_mem _ ho'))
        (by rw [hcf.2.2.2.2.2, hbf.2.2.2.2, hc, hw]; push_cast; rfl)
        (by rw [hcf.2.1, hbf.2.1, hs])
        (by rw [hcf.1, hbf.1, hh])
        (by simp only [List.length_cons] at hk; push_cast at hk ⊢; omega)
      rw [List.cons_append, handleDisconnect_cons c _ _ hs]
      simp only [hof, if_true]
      refine ⟨hrec.1, ?_, ?_⟩
      · rw [reconnectReports_append, reconnectReports_append, connect_reports,
          backoffEvents_reports c hh, hrec.2.1, hc, hw]
        simp only [List.length_cons, List.append_nil]
        rw [List.range_succ_eq_map (rest.length + 1)]
        simp only [List.map_cons, List.map_map, List.singleton_append]
        have hfun : (fun i : Nat => (((n + 1 + i + 1 : Nat) : Int), backoffDelay ((n + 1 + i : Nat) : Int))) =
            ((fun i : Nat => (((n + i + 1 : Nat) : Int), backoffDelay ((n + i : Nat) : Int))) ∘
              Nat.succ) := by
          funext i
          simp only [Function.comp, Nat.succ_eq_add_one]
          rw [show n + 1 + i = n + (i + 1) by omega]
        rw [hfun]
        simp
      · rw [hrec.2.2]
        simp only [List.length_cons]
        push_cast
        omega

theorem endsConnected_split (outs : List ConnectOutcome) (h : endsConnected outs = true) :
    ∃ fails conn now, outs = fails ++ [ConnectOutcome.connected conn now] ∧
      (∀ o ∈ fails, o.failed = true) := by
  induction outs with
  | nil => simp [endsConnected] at h
  | cons o rest ih =>
      cases rest with
      | nil =>
          cases o with
          | connected conn now => exact ⟨[], conn, now, rfl, by simp⟩
          | dialFailed cause => simp [endsConnected, ConnectOutcome.failed] at h
          | handshakeFailed conn now cause => simp [endsConnected, ConnectOutcome.failed] at h
      | cons o2 rest2 =>
          simp only [endsConnected, Bool.and_eq_true] at h
          obtain ⟨fails, conn, now, hsplit, hfails⟩ := ih h.2
          refine ⟨o :: fails, conn, now, by rw [hsplit, List.cons_append], ?_⟩
          intro o' ho'
          rcases List.mem_cons.mp ho' with e | m
          · rw [e]; exact h.1
          · exact hfails o' m

theorem handleDisconnect_keeps (outs : List ConnectOutcome) :
    ∀ (c : Client), (c.handleDisconnect outs).1.options = c.options ∧
      (c.handleDisconnect outs).1.shouldReconnect = c.shouldReconnect ∧
      (c.handleDisconnect outs).1.assignedURL = c.assignedURL := by
  induction outs with
  | nil =>
      intro c
      cases hs : c.shouldReconnect with
      | false => rw [handleDisconnect_stopped c [] hs]; exact ⟨rfl, hs, rfl⟩
      | true =>
          rw [handleDisconnect_nil c hs]
          exact ⟨(backoffState_fields c).1, (backoffState_fields c).2.1.trans hs,
            (backoffState_fields c).2.2.1⟩
  | cons o rest ih =>
      intro c
      cases hs : c.shouldReconnect with
      | false => rw [handleDisconnect_stopped c _ hs]; exact ⟨rfl, hs, rfl⟩
      | true =>
          have hcf := connect_fields c.backoffState o
          have hbf := backoffState_fields c
          rw [handleDisconnect_cons c o rest hs]
          cases o.failed with
          | true =>
              simp only [if_true]
              have hrec := ih (c.backoffState.connect o).2.1
              exact ⟨hrec.1.trans (hcf.1.trans hbf.1),
                hrec.2.1.trans (hcf.2.1.trans (hbf.2.1.trans hs)),
                hrec.2.2.trans (hcf.2.2.1.trans hbf.2.2.1)⟩
          | false =>
              simp only [Bool.false_eq_true, if_false]
              exact ⟨hcf.1.trans hbf.1, hcf.2.1.trans (hbf.2.1.trans hs),
                hcf.2.2.1.trans hbf.2.2.1⟩

theorem handleError_keeps (c : Client) (code message : String)
    (hcode : ¬ (code = "AUTH_FAILED" ∨ code = "LIMIT_EXCEEDED")) :
    (c.handleError code message).1.options = c.options ∧
    (c.handleError code message).1.shouldReconnect = c.shouldReconnect ∧
    (c.handleError code message).1.reconnectAttempts = c.reconnectAttempts ∧
    reconnectReports (c.handleError code message).2.1 = [] := by
  unfold Client.handleError
  by_cases h1 : code = "SUBDOMAIN_IN_USE" ∧ c.assignedURL ≠ "" ∧ c.forceTakeover = false
  · rw [if_pos h1]
    refine ⟨rfl, rfl, rfl, ?_⟩
    dsimp only
    split <;> simp [reconnectReports]
  · rw [if_neg h1]
    dsimp only
    rw [if_neg hcode]
    refine ⟨rfl, rfl, rfl, ?_⟩
    dsimp only
    split <;> simp [reconnectReports]

theorem step_keepsCounting (urlHostname : String → Option String) (c : Client) (s : Step)
    (n : Nat) (hk : s.keepsCounting = true) (hc : c.reconnectAttempts = (n : Int))
    (hs : c.shouldReconnect = true) (hh : c.options.OnReconnecting = true)
    (hn : ((n + failureCount [s] : Nat) : Int) < 2 ^ 63) :
    (c.step urlHostname s).1.options = c.options ∧
    (c.step urlHostname s).1.shouldReconnect = true ∧
    (c.step urlHostname s).1.reconnectAttempts = ((n + failureCount [s] : Nat) : Int) ∧
    reconnectReports (c.step urlHostname s).2 =
      (List.range (failureCount [s])).map
        (fun i => (((n + i + 1 : Nat) : Int), backoffDelay ((n + i : Nat) : Int))) := by
  cases s with
  | start o => simp [Step.keepsCounting] at hk
  | stop => simp [Step.keepsCounting] at hk
  | disconnect outs =>
      obtain ⟨fails, conn, now, hsplit, hfails⟩ := endsConnected_split outs hk
      have hlen : outs.length = fails.length + 1 := by rw [hsplit]; simp
      have hcount : failureCount [Step.disconnect outs] = fails.length + 1 := by
        simp [failureCount, hlen]
      rw [hcount] at hn ⊢
      have h := handleDisconnect_failures fails c n conn now hfails hc hs hh
        (by rw [← Nat.add_assoc] at hn; exact hn)
      have hkeep := handleDisconnect_keeps outs c
      simp only [Client.step]
      rw [hsplit] at hkeep ⊢
      exact ⟨hkeep.1, hkeep.2.1.trans hs, by rw [h.2.2, Nat.add_assoc], h.2.1⟩
  | message data =>
      have hcount : failureCount [Step.message data] = 0 := rfl
      rw [hcount]
      simp only [Nat.add_zero, List.range_zero, List.map_nil]
      cases data with
      | malformed => exact ⟨rfl, hs, hc, rfl⟩
      | unknown t => exact ⟨rfl, hs, hc, rfl⟩
      | tunnelOpened m =>
          cases m with
          | none => exact ⟨rfl, hs, hc, rfl⟩
          | some m => simp [Step.keepsCounting] at hk
      | request m =>
          cases m with
          | none => exact ⟨rfl, hs, hc, rfl⟩
          | some m => exact ⟨rfl, hs, hc, by simp [Client.step, Client.handleMessage, reconnectReports]⟩
      | error m =>
          cases m with
          | none => exact ⟨rfl, hs, hc, rfl⟩
          | some m =>
              have hcode : ¬ (m.Code = "AUTH_FAILED" ∨ m.Code = "LIMIT_EXCEEDED") := by
                simpa [Step.keepsCounting] using hk
              have h := handleError_keeps c m.Code m.Message hcode
              exact ⟨h.1, h.2.1.trans hs, h.2.2.1.trans hc, h.2.2.2⟩

theorem run_keepsCounting (urlHostname : String → Option String) (steps : List Step) :
    ∀ (c : Client) (n : Nat), (∀ s ∈ steps, s.keepsCounting = true) →
      c.reconnectAttempts = (n : Int) → c.shouldReconnect = true →
      c.options.OnReconnecting = true →
      ((n + failureCount steps : Nat) : Int) < 2 ^ 63 →
      (c.run urlHostname steps).reconnectAttempts = ((n + failureCount steps : Nat) : Int) ∧
      reconnectReports (c.trace urlHostname steps) =
        (List.range (failureCount steps)).map
          (fun i => (((n + i + 1 : Nat) : Int), backoffDelay ((n + i : Nat) : Int))) := by
  induction steps with
  | nil =>
      intro c n _ hc _ _ _
      exact ⟨by simpa [Client.run, failureCount] using hc, by simp [Client.trace, failureCount,
        reconnectReports]⟩
  | cons s rest ih =>
      intro c n hk hc hs hh hn
      have hsplit : failureCount (s :: rest) = failureCount [s] + failureCount rest := by
        cases s <;> simp [failureCount]
      rw [hsplit] at hn ⊢
      have h1 := step_keepsCounting urlHostname c s n (hk s (List.mem_cons_self _ _)) hc hs hh
        (by push_cast at hn ⊢; omega)
      have h2 := ih (c.step urlHostname s).1 (n + failureCount [s])
        (fun s' hs' => hk s' (List.mem_cons_of_mem _ hs')) h1.2.2.1 h1.2.1
        (by rw [h1.1]; exact hh) (by rw [Nat.add_assoc]; exact hn)
      constructor
      · simp only [Client.run, List.foldl_cons]
        rw [← Nat.add_assoc]
        exact h2.1
      · simp only [Client.trace]
        rw [reconnectReports_append, h1.2.2.2, h2.2, List.range_add, List.map_append,
          List.map_map]
        congr 1
        apply List.map_congr_left
        intro i _
        simp only [Function.comp, Nat.add_assoc]

/-- C2: the reconnect delay computed from the pre-increment counter `n ≥ 0`
is `min(2s * 2^n, 30s)`: non-decreasing in `n`, at most 30s, and
2s, 4s, 8s, 16s, 30s, 30s for `n = 0..5`.  Let a session with the attempt
counter at 0 (should-reconnect true, reconnecting hook installed) go through
any steps that contain `k` consecutive failures (lost connections and failed
reconnects; `k` within the range of a Go `int`) and otherwise only messages
that are neither `tunnel_opened` nor fatal errors: the reconnecting hook
receives exactly `(1, delay 0), (2, delay 1), ..., (k, delay (k-1))`, in this
order, and the counter is left at `k`. -/
theorem C2_reconnect_backoff (urlHostname : String → Option String) (c : Client)
    (steps : List Step)
    (hsteps : ∀ s ∈ steps, s.keepsCounting = true) (hc : c.reconnectAttempts = 0)
    (hs : c.shouldReconnect = true) (hh : c.options.OnReconnecting = true)
    (hk : ((failureCount steps : Nat) : Int) < 2 ^ 63) :
    (∀ n : Nat, backoffDelay (n : Int) = min (2 * second * 2 ^ n) (30 * second)) ∧
    (∀ m n : Nat, m ≤ n → backoffDelay (m : Int) ≤ backoffDelay (n : Int)) ∧
    (∀ n : Nat, backoffDelay (n : Int) ≤ 30 * second) ∧
    (backoffDelay 0 = 2 * second ∧ backoffDelay 1 = 4 * second ∧ backoffDelay 2 = 8 * second ∧
      backoffDelay 3 = 16 * second ∧ backoffDelay 4 = 30 * second ∧
      backoffDelay 5 = 30 * second) ∧
    reconnectReports (c.trace urlHostname steps) =
      (List.range (failureCount steps)).map
        (fun i => (((i + 1 : Nat) : Int), min (2 * second * 2 ^ i) (30 * second))) ∧
    (c.run urlHostname steps).reconnectAttempts = ((failureCount steps : Nat) : Int) := by
  have h := run_keepsCounting urlHostname steps c 0 hsteps (by simpa using hc) hs hh
    (by simpa using hk)
  refine ⟨backoffDelay_nat, backoffDelay_mono, ?_, ?_, ?_, ?_⟩
  · intro n
    rw [backoffDelay_nat]
    exact min_le_right _ _
  · refine ⟨?_, ?_, ?_, ?_, ?_, ?_⟩ <;> simp [backoffDelay, second]
  · rw [h.2]
    apply List.map_congr_left
    intro i _
    simp only [Nat.zero_add]
    rw [backoffDelay_nat]
  · rw [h.1, Nat.zero_add]

/-- C2 at a concrete run: a lost connection with two failed dials before the
reconnect succeeds, a non-fatal error message, and a second lost connection
are 4 consecutive failures: the hook receives attempts 1 to 4 with delays
2s, 4s, 8s, 16s and the counter ends at 4. -/
theorem C2_reconnect_backoff_witness :
    reconnectReports (sampleClient.trace sampleHostname
      [Step.disconnect [ConnectOutcome.dialFailed "refused", ConnectOutcome.dialFailed "refused",
          ConnectOutcome.connected 7 0],
       Step.message (Inbound.error (some ⟨"error", "RATE_LIMITED", "slow down"⟩)),
       Step.disconnect [ConnectOutcome.connected 8 0]]) =
      [(1, 2 * second), (2, 4 * second), (3, 8 * second), (4, 16 * second)] ∧
    (sampleClient.run sampleHostname
      [Step.disconnect [ConnectOutcome.dialFailed "refused", ConnectOutcome.dialFailed "refused",
          ConnectOutcome.connected 7 0],
       Step.message (Inbound.error (some ⟨"error", "RATE_LIMITED", "slow down"⟩)),
       Step.disconnect [ConnectOutcome.connected 8 0]]).reconnectAttempts = 4 := by
  have h := C2_reconnect_backoff sampleHostname sampleClient
    [Step.disconnect [ConnectOutcome.dialFailed "refused", ConnectOutcome.dialFailed "refused",
        ConnectOutcome.connected 7 0],
     Step.message (Inbound.error (some ⟨"error", "RATE_LIMITED", "slow down"⟩)),
     Step.disconnect [ConnectOutcome.connected 8 0]]
    (by decide) rfl rfl rfl (by decide)
  refine ⟨?_, h.2.2.2.2.2⟩
  rw [h.2.2.2.2.1]
  decide

/-! ### Fatal errors -/

theorem Stop_fields (c : Client) :
    c.Stop.1.shouldReconnect = false ∧
    c.Stop.1.assignedURL = c.assignedURL ∧
    c.Stop.1.forceTakeover = c.forceTakeover ∧
    c.Stop.1.reconnectAttempts = c.reconnectAttempts ∧
    c.Stop.1.subdomain = c.subdomain ∧
    c.Stop.1.options = c.options := by
  unfold Client.Stop
  dsimp only
  split
  · simp
  · split
    · simp
    · split <;> simp

theorem handleError_shouldReconnect (c : Client) (code message : String) :
    (c.handleError code message).1.shouldReconnect =
      (if code = "AUTH_FAILED" ∨ code = "LIMIT_EXCEEDED" then false else c.shouldReconnect) := by
  unfold Client.handleError
  by_cases h1 : code = "SUBDOMAIN_IN_USE" ∧ c.assignedURL ≠ "" ∧ c.forceTakeover = false
  · have hne : ¬ (code = "AUTH_FAILED" ∨ code = "LIMIT_EXCEEDED") := by
      rw [h1.1]; decide
    rw [if_pos h1, if_neg hne]
  · rw [if_neg h1]
    by_cases h2 : code = "AUTH_FAILED" ∨ code = "LIMIT_EXCEEDED"
    · simp only [if_pos h2]
      exact (Stop_fields _).1
    · simp only [if_neg h2]

theorem handleMessage_shouldReconnect_false (urlHostname : String → Option String) (c : Client)
    (data : Inbound) (hs : c.shouldReconnect = false) :
    (c.handleMessage urlHostname data).1.shouldReconnect = false := by
  cases data with
  | malformed => simpa [Client.handleMessage] using hs
  | unknown t => simpa [Client.handleMessage] using hs
  | tunnelOpened m =>
      cases m with
      | none => simpa [Client.handleMessage] using hs
      | some m =>
          simp only [Client.handleMessage]
          split <;> simpa using hs
  | error m =>
      cases m with
      | none => simpa [Client.handleMessage] using hs
      | some m =>
          simp only [Client.handleMessage]
          rw [handleError_shouldReconnect]
          split
          · rfl
          · exact hs
  | request m =>
      cases m with
      | none => simpa [Client.handleMessage] using hs
      | some m => simpa [Client.handleMessage] using hs

theorem step_shouldReconnect_false (urlHostname : String → Option String) (c : Client) (s : Step)
    (hs : c.shouldReconnect = false) (hst : s.isStart = false) :
    (c.step urlHostname s).1.shouldReconnect = false := by
  cases s with
  | message data => exact handleMessage_shouldReconnect_false urlHostname c data hs
  | disconnect outs =>
      simp only [Client.step]
      rw [handleDisconnect_stopped c outs hs]
      exact hs
  | start o => simp [Step.isStart] at hst
  | stop => exact (Stop_fields c).1

theorem run_shouldReconnect_false (urlHostname : String → Option String) (steps : List Step) :
    ∀ (c : Client), c.shouldReconnect = false → (∀ s ∈ steps, s.isStart = false) →
      (c.run urlHostname steps).shouldReconnect = false := by
  induction steps with
  | nil => intro c hs _; exact hs
  | cons s rest ih =>
      intro c hs hst
      simp only [Client.run, List.foldl_cons]
      exact ih _ (step_shouldReconnect_false urlHostname c s hs (hst s (List.mem_cons_self _ _)))
        (fun s' hs' => hst s' (List.mem_cons_of_mem _ hs'))

/-- C6: handling an `error` message with code AUTH_FAILED or LIMIT_EXCEEDED
leaves should-reconnect false whatever it was before; after any later steps
other than a new `Start` it is still false and every `handleDisconnect`
returns without changing the attempt counter, without calling the
reconnecting hook and without dialing.  An `error` message with any other
code leaves should-reconnect as it was. -/
theorem C6_fatal_error_stops_reconnecting (urlHostname : String → Option String) (c : Client)
    (errMsg : errorMessage) :
    ((errMsg.Code = "AUTH_FAILED" ∨ errMsg.Code = "LIMIT_EXCEEDED") →
      (c.handleMessage urlHostname (Inbound.error (some errMsg))).1.shouldReconnect = false ∧
      ∀ (steps : List Step), (∀ s ∈ steps, s.isStart = false) → ∀ (outs : List ConnectOutcome),
        (((c.handleMessage urlHostname (Inbound.error (some errMsg))).1.run urlHostname
            steps).shouldReconnect = false ∧
          (((c.handleMessage urlHostname (Inbound.error (some errMsg))).1.run urlHostname
            steps).handleDisconnect outs).2.2 = Fate.returned ∧
          (((c.handleMessage urlHostname (Inbound.error (some errMsg))).1.run urlHostname
            steps).handleDisconnect outs).1.reconnectAttempts =
            ((c.handleMessage urlHostname (Inbound.error (some errMsg))).1.run urlHostname
              steps).reconnectAttempts ∧
          reconnectReports (((c.handleMessage urlHostname (Inbound.error (some errMsg))).1.run
            urlHostname steps).handleDisconnect outs).2.1 = [] ∧
          dialed (((c.handleMessage urlHostname (Inbound.error (some errMsg))).1.run
            urlHostname steps).handleDisconnect outs).2.1 = false)) ∧
    ((errMsg.Code ≠ "AUTH_FAILED" ∧ errMsg.Code ≠ "LIMIT_EXCEEDED") →
      (c.handleMessage urlHostname (Inbound.error (some errMsg))).1.shouldReconnect =
        c.shouldReconnect) := by
  have hm : c.handleMessage urlHostname (Inbound.error (some errMsg)) =
      c.handleError errMsg.Code errMsg.Message := rfl
  rw [hm]
  constructor
  · intro hcode
    have h0 : (c.handleError errMsg.Code errMsg.Message).1.shouldReconnect = false := by
      rw [handleError_shouldReconnect, if_pos hcode]
    refine ⟨h0, ?_⟩
    intro steps hst outs
    have h1 := run_shouldReconnect_false urlHostname steps _ h0 hst
    rw [handleDisconnect_stopped _ outs h1]
    refine ⟨h1, rfl, rfl, ?_, ?_⟩
    · dsimp only
      split <;> simp [reconnectReports]
    · dsimp only
      split <;> simp [dialed]
  · intro hcode
    rw [handleError_shouldReconnect, if_neg (by simp [hcode.1, hcode.2])]

/-- C6 at a concrete input: AUTH_FAILED on a fresh client (should-reconnect
true) leaves should-reconnect false, and a later transport failure does not
dial. -/
theorem C6_fatal_error_stops_reconnecting_witness :
    (sampleClient.handleMessage sampleHostname
      (Inbound.error (some ⟨"error", "AUTH_FAILED", "bad key"⟩))).1.shouldReconnect = false ∧
    dialed (((sampleClient.handleMessage sampleHostname
      (Inbound.error (some ⟨"error", "AUTH_FAILED", "bad key"⟩))).1.run sampleHostname
        [Step.stop]).handleDisconnect [ConnectOutcome.connected 1 0]).2.1 = false :=
  ⟨((C6_fatal_error_stops_reconnecting sampleHostname sampleClient
      ⟨"error", "AUTH_FAILED", "bad key"⟩).1 (Or.inl rfl)).1,
   (((C6_fatal_error_stops_reconnecting sampleHostname sampleClient
      ⟨"error", "AUTH_FAILED", "bad key"⟩).1 (Or.inl rfl)).2 [Step.stop] (by decide)
      [ConnectOutcome.connected 1 0]).2.2.2.2⟩

/-! ### The takeover invariant -/

theorem handleError_takeover (c : Client) (code message : String) :
    (c.handleError code message).1.assignedURL = c.assignedURL ∧
    ((c.handleError code message).1.forceTakeover = true →
      c.forceTakeover = true ∨ c.assignedURL ≠ "") ∧
    handshakes (c.handleError code message).2.1 = [] := by
  unfold Client.handleError
  by_cases h1 : code = "SUBDOMAIN_IN_USE" ∧ c.assignedURL ≠ "" ∧ c.forceTakeover = false
  · rw [if_pos h1]
    refine ⟨rfl, fun _ => Or.inr h1.2.1, ?_⟩
    dsimp only
    split <;> simp [handshakes]
  · rw [if_neg h1]
    have hStop : ∀ d : Client, handshakes d.Stop.2.1 = [] := by
      intro d
      unfold Client.Stop
      dsimp only
      split
      · rfl
      · split
        · split <;> split <;> split <;> simp [handshakes]
        · split <;> split <;> split <;> split <;> simp [handshakes]
    by_cases h2 : code = "AUTH_FAILED" ∨ code = "LIMIT_EXCEEDED"
    · simp only [if_pos h2]
      have hf := Stop_fields { c with shouldReconnect := false }
      refine ⟨hf.2.1, fun h => Or.inl ?_, ?_⟩
      · rw [hf.2.2.1] at h; exact h
      · rw [handshakes_append, hStop]
        split <;> simp [handshakes]
    · rw [if_neg h2]
      refine ⟨rfl, fun h => Or.inl h, ?_⟩
      dsimp only
      split <;> simp [handshakes]

theorem handleMessage_takeover (urlHostname : String → Option String) (c : Client)
    (data : Inbound) (hI : c.forceTakeover = true → c.assignedURL ≠ "") :
    ((c.handleMessage urlHostname data).1.forceTakeover = true →
      (c.handleMessage urlHostname data).1.assignedURL ≠ "") ∧
    handshakes (c.handleMessage urlHostname data).2.1 = [] := by
  cases data with
  | malformed => exact ⟨hI, rfl⟩
  | unknown t => exact ⟨hI, rfl⟩
  | tunnelOpened m =>
      cases m with
      | none => exact ⟨hI, rfl⟩
      | some m =>
          simp only [Client.handleMessage]
          constructor
          · split <;> simp
          · split <;> simp [handshakes]
  | error m =>
      cases m with
      | none => exact ⟨hI, rfl⟩
      | some m =>
          simp only [Client.handleMessage]
          have h := handleError_takeover c m.Code m.Message
          refine ⟨fun hf => ?_, h.2.2⟩
          rw [h.1]
          rcases h.2.1 hf with h' | h'
          · exact hI h'
          · exact h'
  | request m =>
      cases m with
      | none => exact ⟨hI, rfl⟩
      | some m => exact ⟨hI, by simp [Client.handleMessage, handshakes]⟩

theorem backoffEvents_handshakes (c : Client) : handshakes c.backoffEvents = [] := by
  unfold Client.backoffEvents
  split <;> split <;> simp [handshakes]

theorem handleDisconnect_takeover (outs : List ConnectOutcome) :
    ∀ (c : Client), (c.forceTakeover = true → c.assignedURL ≠ "") →
      (c.handleDisconnect outs).1.assignedURL = c.assignedURL ∧
      ((c.handleDisconnect outs).1.forceTakeover = true → c.assignedURL ≠ "") ∧
      (∀ m ∈ handshakes (c.handleDisconnect outs).2.1,
        m.ForceTakeover = true → c.assignedURL ≠ "") := by
  induction outs with
  | nil =>
      intro c hI
      cases hs : c.shouldReconnect with
      | false =>
          rw [handleDisconnect_stopped c [] hs]
          refine ⟨rfl, hI, ?_⟩
          dsimp only
          split <;> simp [handshakes]
      | true =>
          rw [handleDisconnect_nil c hs]
          refine ⟨rfl, ?_, ?_⟩
          · by_cases hu : c.assignedURL = ""
            · simpa [Client.backoffState, hu] using hI
            · exact fun _ => hu
          · simp [backoffEvents_handshakes]
  | cons o rest ih =>
      intro c hI
      cases hs : c.shouldReconnect with
      | false =>
          rw [handleDisconnect_stopped c _ hs]
          refine ⟨rfl, hI, ?_⟩
          dsimp only
          split <;> simp [handshakes]
      | true =>
          have hb : c.backoffState.forceTakeover = true → c.assignedURL ≠ "" := by
            by_cases hu : c.assignedURL = ""
            · simpa [Client.backoffState, hu] using hI
            · exact fun _ => hu
          have hcf := connect_fields c.backoffState o
          have hbf := backoffState_fields c
          have hch := connect_handshakes c.backoffState o
          have hurl : (c.backoffState.connect o).2.1.assignedURL = c.assignedURL := by
            rw [hcf.2.2.1, hbf.2.2.1]
          rw [handleDisconnect_cons c o rest hs]
          cases hof : o.failed with
          | true =>
              have hrec := ih (c.backoffState.connect o).2.1 (by
                rw [hcf.2.2.2.2.1, hurl]; exact hb)
              simp only [if_true]
              rw [hurl] at hrec
              refine ⟨hrec.1, hrec.2.1, ?_⟩
              intro m hm
              rw [handshakes_append, handshakes_append, backoffEvents_handshakes,
                List.nil_append, List.mem_append] at hm
              rcases hm with hm | hm
              · intro ht
                exact hb (by rw [← hch m hm]; exact ht)
              · exact hrec.2.2 m hm
          | false =>
              simp only [Bool.false_eq_true, if_false]
              refine ⟨hurl, ?_, ?_⟩
              · rw [hcf.2.2.2.2.1]; exact hb
              · intro m hm
                rw [handshakes_append, backoffEvents_handshakes, List.nil_append] at hm
                intro ht
                exact hb (by rw [← hch m hm]; exact ht)

theorem Start_fields (c : Client) (o : ConnectOutcome) :
    (c.Start o).2.1.assignedURL = c.assignedURL ∧
    (c.Start o).2.1.forceTakeover = c.forceTakeover ∧
    (∀ m ∈ handshakes (c.Start o).2.2, m.ForceTakeover = c.forceTakeover) := by
  unfold Client.Start
  split
  · simp [handshakes]
  · exact ⟨(connect_fields _ o).2.2.1, (connect_fields _ o).2.2.2.2.1, connect_handshakes _ o⟩

theorem step_takeover (urlHostname : String → Option String) (c : Client) (s : Step)
    (hI : c.forceTakeover = true → c.assignedURL ≠ "") :
    ((c.step urlHostname s).1.forceTakeover = true → (c.step urlHostname s).1.assignedURL ≠ "") ∧
    (∀ m ∈ handshakes (c.step urlHostname s).2, m.ForceTakeover = true → c.assignedURL ≠ "") := by
  cases s with
  | message data =>
      have h := handleMessage_takeover urlHostname c data hI
      refine ⟨h.1, ?_⟩
      simp only [Client.step]
      rw [h.2]
      simp
  | disconnect outs =>
      have h := handleDisconnect_takeover outs c hI
      simp only [Client.step]
      refine ⟨?_, h.2.2⟩
      rw [h.1]
      exact h.2.1
  | start o =>
      have hsf := Start_fields c o
      simp only [Client.step]
      refine ⟨?_, ?_⟩
      · rw [hsf.1, hsf.2.1]; exact hI
      · intro m hm ht
        exact hI (by rw [← hsf.2.2 m hm]; exact ht)
  | stop =>
      have hf := Stop_fields c
      simp only [Client.step]
      refine ⟨?_, ?_⟩
      · rw [hf.2.1, hf.2.2.1]; exact hI
      · have hStop : handshakes c.Stop.2.1 = [] := by
          unfold Client.Stop
          dsimp only
          split
          · rfl
          · split
            · split <;> split <;> split <;> simp [handshakes]
            · split <;> split <;> split <;> split <;> simp [handshakes]
        rw [hStop]
        simp

theorem run_takeover (urlHostname : String → Option String) (steps : List Step) :
    ∀ (c : Client), (c.forceTakeover = true → c.assignedURL ≠ "") →
      ((c.run urlHostname steps).forceTakeover = true →
        (c.run urlHostname steps).assignedURL ≠ "") := by
  induction steps with
  | nil => intro c hI; exact hI
  | cons s rest ih =>
      intro c hI
      simp only [Client.run, List.foldl_cons]
      exact ih _ (step_takeover urlHostname c s hI).1

/-- C10: in every state reachable from `New` through any sequence of handled
messages, transport failures (and calls of `Start` and `Stop`), force-takeover
is true only if the assigned URL is non-empty; and every handshake written
by a step taken from such a state with forceTakeover = true is written by a
session whose assigned URL is non-empty. -/
theorem C10_takeover_needs_assigned_url (urlHostname : String → Option String)
    (getenv : String → String) (now : Nat) (opts : Options) (steps : List Step) :
    (((New getenv now opts).run urlHostname steps).forceTakeover = true →
      ((New getenv now opts).run urlHostname steps).assignedURL ≠ "") ∧
    (∀ (s : Step),
      ∀ m ∈ handshakes (((New getenv now opts).run urlHostname steps).step urlHostname s).2,
        m.ForceTakeover = true →
          ((New getenv now opts).run urlHostname steps).assignedURL ≠ "") := by
  have h0 : (New getenv now opts).forceTakeover = true → (New getenv now opts).assignedURL ≠ "" := by
    simp [New]
  have h := run_takeover urlHostname steps _ h0
  exact ⟨h, fun s => (step_takeover urlHostname _ s h).2⟩

/-! ### Subdomain collisions -/

theorem handleError_inUse_first (c : Client) (message : String)
    (hu : c.assignedURL ≠ "") (hf : c.forceTakeover = false) :
    (c.handleError "SUBDOMAIN_IN_USE" message).1 = { c with forceTakeover := true } ∧
    errorReports (c.handleError "SUBDOMAIN_IN_USE" message).2.1 = [] ∧
    (∀ conn, c.conn = some conn →
      (c.handleError "SUBDOMAIN_IN_USE" message).2.1 = [Event.closeConn conn]) := by
  unfold Client.handleError
  rw [if_pos ⟨rfl, hu, hf⟩]
  refine ⟨rfl, ?_, ?_⟩
  · dsimp only
    split <;> simp [errorReports]
  · intro conn hc
    simp [hc]

theorem handleError_inUse_again (c : Client) (message : String)
    (hf : c.forceTakeover = true) :
    (c.handleError "SUBDOMAIN_IN_USE" message).1 = c ∧
    errorReports (c.handleError "SUBDOMAIN_IN_USE" message).2.1 =
      (if c.options.OnError then [(message, "SUBDOMAIN_IN_USE")] else []) := by
  unfold Client.handleError
  rw [if_neg (by simp [hf])]
  rw [if_neg (by decide)]
  refine ⟨rfl, ?_⟩
  dsimp only
  split <;> simp [errorReports]

theorem run_inUse_again (urlHostname : String → Option String) (msgs : List String) :
    ∀ (c : Client), c.forceTakeover = true →
      c.run urlHostname (msgs.map subdomainInUse) = c ∧
      errorReports (c.trace urlHostname (msgs.map subdomainInUse)) =
        (if c.options.OnError then msgs.map (fun m => (m, "SUBDOMAIN_IN_USE")) else []) := by
  induction msgs with
  | nil => intro c _; simp [Client.run, Client.trace, errorReports]
  | cons m rest ih =>
      intro c hf
      have h1 := handleError_inUse_again c m hf
      have hstep : c.step urlHostname (subdomainInUse m) =
          ((c.handleError "SUBDOMAIN_IN_USE" m).1, (c.handleError "SUBDOMAIN_IN_USE" m).2.1) := rfl
      have hrec := ih c hf
      simp only [List.map_cons, Client.run, List.foldl_cons, Client.trace, hstep, h1.1,
        errorReports_append, h1.2]
      refine ⟨hrec.1, ?_⟩
      rw [hrec.2]
      split <;> simp

theorem connect_handshakes_eq (c : Client) (o : ConnectOutcome) :
    handshakes (c.connect o).2.2 =
      (match o with
        | ConnectOutcome.dialFailed _ => []
        | _ => [c.openTunnel]) := by
  cases o
  · simp [Client.connect, handshakes]
  · simp [Client.connect, Client.sendHandshake, handshakes, Client.openTunnel]
  · simp only [Client.connect, Client.sendHandshake, Client.startPing]
    split <;> simp [handshakes, Client.openTunnel]

theorem backoffState_openTunnel (c : Client) (hf : c.forceTakeover = true) :
    c.backoffState.openTunnel = c.openTunnel := by
  simp [Client.backoffState, Client.openTunnel, hf]

/-- Every handshake a `handleDisconnect` run writes, on the first reconnect
and on every retry, carries forceTakeover = true when a URL is assigned. -/
theorem handleDisconnect_handshakes_forced (outs : List ConnectOutcome) :
    ∀ (c : Client), c.assignedURL ≠ "" →
      ∀ m ∈ handshakes (c.handleDisconnect outs).2.1, m.ForceTakeover = true := by
  induction outs with
  | nil =>
      intro c _ m hm
      cases hs : c.shouldReconnect with
      | false =>
          rw [handleDisconnect_stopped c [] hs] at hm
          dsimp only at hm
          split at hm <;> simp [handshakes] at hm
      | true =>
          rw [handleDisconnect_nil c hs] at hm
          simp [backoffEvents_handshakes] at hm
  | cons o rest ih =>
      intro c hu m hm
      cases hs : c.shouldReconnect with
      | false =>
          rw [handleDisconnect_stopped c _ hs] at hm
          dsimp only at hm
          split at hm <;> simp [handshakes] at hm
      | true =>
          have hb : c.backoffState.forceTakeover = true := by
            simp [Client.backoffState, hu]
          have hcf := connect_fields c.backoffState o
          have hbf := backoffState_fields c
          have hch := connect_handshakes c.backoffState o
          rw [handleDisconnect_cons c o rest hs] at hm
          cases hof : o.failed with
          | true =>
              rw [hof] at hm
              simp only [if_true] at hm
              rw [handshakes_append, handshakes_append, backoffEvents_handshakes,
                List.nil_append, List.mem_append] at hm
              rcases hm with hm | hm
              · rw [hch m hm]; exact hb
              · exact ih (c.backoffState.connect o).2.1
                  (by rw [hcf.2.2.1, hbf.2.2.1]; exact hu) m hm
          | false =>
              rw [hof] at hm
              simp only [Bool.false_eq_true, if_false] at hm
              rw [handshakes_append, backoffEvents_handshakes, List.nil_append] at hm
              rw [hch m hm]; exact hb

/-- The first reconnect of `handleDisconnect` whose dial succeeds writes the
handshake of the session as it stands (force-takeover already set). -/
theorem handleDisconnect_first_handshake (c : Client) (o : ConnectOutcome)
    (rest : List ConnectOutcome) (hs : c.shouldReconnect = true) (hf : c.forceTakeover = true)
    (ho : ∀ cause, o ≠ ConnectOutcome.dialFailed cause) :
    ∃ tl, handshakes (c.handleDisconnect (o :: rest)).2.1 = c.openTunnel :: tl := by
  rw [handleDisconnect_cons c o rest hs]
  have hce := connect_handshakes_eq c.backoffState o
  rw [backoffState_openTunnel c hf] at hce
  cases o with
  | dialFailed cause => exact absurd rfl (ho cause)
  | handshakeFailed conn now cause =>
      simp only [ConnectOutcome.failed, if_true]
      rw [handshakes_append, handshakes_append, backoffEvents_handshakes, List.nil_append, hce]
      exact ⟨_, rfl⟩
  | connected conn now =>
      simp only [ConnectOutcome.failed, Bool.false_eq_true, if_false]
      rw [handshakes_append, backoffEvents_handshakes, List.nil_append, hce]
      exact ⟨[], rfl⟩

/-- C5 (amended): while a prior URL is assigned, a SUBDOMAIN_IN_USE error that
arrives with force-takeover not yet set sets it, closes the transport and
does not reach the error hook; one that arrives with force-takeover already
set changes nothing and is given to the error hook (when installed).
Hence after any non-empty sequence of such errors the session is the
original one with force-takeover set, and the error hook has received
exactly the errors that arrived while force-takeover was already set.  The
next handshake carries forceTakeover = true: every handshake that the
reconnect procedure (`handleDisconnect`, through `connect`, on the first
reconnect and on every retry) or a new `Start` then writes has the flag set,
and when should-reconnect is true the first reconnect whose dial succeeds
does write the session's handshake with the flag set. -/
theorem C5_subdomain_takeover (urlHostname : String → Option String) (c : Client)
    (msgs : List String) (hu : c.assignedURL ≠ "") (hne : msgs ≠ []) :
    (c.run urlHostname (msgs.map subdomainInUse)).forceTakeover = true ∧
    (c.run urlHostname (msgs.map subdomainInUse)).assignedURL = c.assignedURL ∧
    (∀ (conn : Conn) (w : Option String),
      ((c.run urlHostname (msgs.map subdomainInUse)).sendHandshake conn w).2 =
        [Event.writeHandshake conn (c.run urlHostname (msgs.map subdomainInUse)).openTunnel]) ∧
    (c.run urlHostname (msgs.map subdomainInUse)).openTunnel.ForceTakeover = true ∧
    errorReports (c.trace urlHostname (msgs.map subdomainInUse)) =
      (if c.options.OnError then
        (if c.forceTakeover then msgs else msgs.tail).map (fun m => (m, "SUBDOMAIN_IN_USE"))
       else []) ∧
    (c.forceTakeover = false → ∀ conn, c.conn = some conn →
      (c.step urlHostname (subdomainInUse (msgs.headD ""))).2 = [Event.closeConn conn]) ∧
    c.run urlHostname (msgs.map subdomainInUse) = { c with forceTakeover := true } ∧
    (c.forceTakeover = true → c.run urlHostname (msgs.map subdomainInUse) = c) ∧
    (∀ (outs : List ConnectOutcome),
      ∀ m ∈ handshakes ((c.run urlHostname (msgs.map subdomainInUse)).handleDisconnect outs).2.1,
        m.ForceTakeover = true) ∧
    (c.shouldReconnect = true → ∀ (o : ConnectOutcome) (rest : List ConnectOutcome),
      (∀ cause, o ≠ ConnectOutcome.dialFailed cause) →
      ∃ tl, handshakes
          ((c.run urlHostname (msgs.map subdomainInUse)).handleDisconnect (o :: rest)).2.1 =
        { c.openTunnel with ForceTakeover := true } :: tl) ∧
    (∀ (o : ConnectOutcome),
      ∀ m ∈ handshakes ((c.run urlHostname (msgs.map subdomainInUse)).Start o).2.2,
        m.ForceTakeover = true) := by
  have hrun : c.run urlHostname (msgs.map subdomainInUse) = { c with forceTakeover := true } ∧
      errorReports (c.trace urlHostname (msgs.map subdomainInUse)) =
        (if c.options.OnError then
          (if c.forceTakeover then msgs else msgs.tail).map (fun m => (m, "SUBDOMAIN_IN_USE"))
         else []) ∧
      (c.forceTakeover = false → ∀ conn, c.conn = some conn →
        (c.step urlHostname (subdomainInUse (msgs.headD ""))).2 = [Event.closeConn conn]) := by
    cases msgs with
    | nil => exact absurd rfl hne
    | cons m rest =>
        cases hf : c.forceTakeover with
        | true =>
            have h := run_inUse_again urlHostname (m :: rest) c hf
            rw [h.1, h.2]
            refine ⟨?_, ?_, ?_⟩
            · cases c
              simp_all
            · simp
            · intro h'; cases h'
        | false =>
            have h1 := handleError_inUse_first c m hu hf
            have hstep : c.step urlHostname (subdomainInUse m) =
                ((c.handleError "SUBDOMAIN_IN_USE" m).1,
                  (c.handleError "SUBDOMAIN_IN_USE" m).2.1) := rfl
            have hrec := run_inUse_again urlHostname rest { c with forceTakeover := true } rfl
            refine ⟨?_, ?_, ?_⟩
            · simp only [List.map_cons, Client.run, List.foldl_cons, hstep, h1.1]
              exact hrec.1
            · simp only [List.map_cons, Client.trace, hstep, h1.1, errorReports_append, h1.2.1,
                List.nil_append, hrec.2]
              simp
            · intro _ conn hc
              simp only [List.headD_cons, hstep]
              exact h1.2.2 conn hc
  obtain ⟨hS, hErr, hClose⟩ := hrun
  have hkeep : c.forceTakeover = true → ({ c with forceTakeover := true } : Client) = c := by
    intro hf
    cases c
    simp_all
  rw [hS]
  refine ⟨rfl, rfl, fun _ _ => rfl, rfl, hErr, hClose, rfl, hkeep, ?_, ?_, ?_⟩
  · intro outs m hm
    exact handleDisconnect_handshakes_forced outs { c with forceTakeover := true } hu m hm
  · intro hs o rest ho
    exact handleDisconnect_first_handshake { c with forceTakeover := true } o rest hs rfl ho
  · intro o m hm
    exact (Start_fields { c with forceTakeover := true } o).2.2 m hm

/-- C5 (amended) at a concrete input: a session with an assigned URL and
force-takeover unset receives SUBDOMAIN_IN_USE twice; force-takeover is set,
the error hook has received the second error only, and the handshake the
reconnect then writes carries forceTakeover = true. -/
theorem C5_subdomain_takeover_witness :
    (({ sampleClient with assignedURL := "https://myapp.outray.dev" } : Client).run sampleHostname
      (["taken", "taken again"].map subdomainInUse)).forceTakeover = true ∧
    errorReports
      (({ sampleClient with assignedURL := "https://myapp.outray.dev" } : Client).trace
        sampleHostname (["taken", "taken again"].map subdomainInUse)) =
      [("taken again", "SUBDOMAIN_IN_USE")] ∧
    (handshakes
      ((({ sampleClient with assignedURL := "https://myapp.outray.dev" } : Client).run
        sampleHostname (["taken", "taken again"].map subdomainInUse)).handleDisconnect
          [ConnectOutcome.connected 2 0]).2.1).map (fun m => m.ForceTakeover) = [true] := by
  have h := C5_subdomain_takeover sampleHostname
    { sampleClient with assignedURL := "https://myapp.outray.dev" }
    ["taken", "taken again"] (by decide) (by decide)
  refine ⟨h.1, ?_, ?_⟩
  · rw [h.2.2.2.2.1]
    decide
  · rw [h.2.2.2.2.2.2.1]
    decide

/-- C5 as stated fails: after Start, `tunnel_opened` and a reconnect (which
sets force-takeover because a URL is assigned), a SUBDOMAIN_IN_USE error is
given to the error hook. -/
theorem C5_counterexample :
    (sampleClient.run sampleHostname
      [Step.start (ConnectOutcome.connected 1 0),
       Step.message (Inbound.tunnelOpened (some sampleOpened)),
       Step.disconnect [ConnectOutcome.connected 2 0]]).assignedURL ≠ "" ∧
    errorReports
      ((sampleClient.run sampleHostname
        [Step.start (ConnectOutcome.connected 1 0),
         Step.message (Inbound.tunnelOpened (some sampleOpened)),
         Step.disconnect [ConnectOutcome.connected 2 0]]).handleMessage sampleHostname
        (Inbound.error (some ⟨"error", "SUBDOMAIN_IN_USE", "taken"⟩))).2.1 =
      [("taken", "SUBDOMAIN_IN_USE")] := by
  decide

/-! ### `tunnel_opened` -/

theorem splitOnChar_head (sep : Char) (l : List Char) :
    ∃ ps, splitOnChar sep l = l.takeWhile (fun ch => decide (ch ≠ sep)) :: ps := by
  induction l with
  | nil => exact ⟨[], rfl⟩
  | cons ch rest ih =>
      obtain ⟨ps, hps⟩ := ih
      by_cases h : ch = sep
      · exact ⟨splitOnChar sep rest, by simp [splitOnChar, h]⟩
      · exact ⟨ps, by simp [splitOnChar, h, hps]⟩

theorem extractSubdomain_eq (urlHostname : String → Option String) (u : String) :
    extractSubdomain urlHostname u =
      (match urlHostname u with
        | none => ""
        | some host => String.mk (host.data.takeWhile (fun ch => decide (ch ≠ '.')))) := by
  unfold extractSubdomain
  cases urlHostname u with
  | none => rfl
  | some host =>
      obtain ⟨ps, hps⟩ := splitOnChar_head '.' host.data
      simp [stringsSplitDot, hps]

/-- C7 (amended): after `handleMessage` processes a `tunnel_opened` message
with URL `u`, the assigned URL is `u`, the reconnect-attempt counter is 0 and
force-takeover is false; the subdomain derived from `u` is the first
dot-separated label of `u`'s hostname (empty when `u` fails to parse or has
no hostname), and the session's subdomain becomes that label when it is
non-empty and keeps its previous value otherwise. -/
theorem C7_tunnel_opened_state (urlHostname : String → Option String) (c : Client)
    (tunnelMsg : tunnelOpenedMessage) :
    (c.handleMessage urlHostname (Inbound.tunnelOpened (some tunnelMsg))).1.assignedURL =
      tunnelMsg.URL ∧
    (c.handleMessage urlHostname (Inbound.tunnelOpened (some tunnelMsg))).1.reconnectAttempts = 0 ∧
    (c.handleMessage urlHostname (Inbound.tunnelOpened (some tunnelMsg))).1.forceTakeover = false ∧
    (c.handleMessage urlHostname (Inbound.tunnelOpened (some tunnelMsg))).1.subdomain =
      (if extractSubdomain urlHostname tunnelMsg.URL ≠ "" then
        extractSubdomain urlHostname tunnelMsg.URL
       else c.subdomain) ∧
    extractSubdomain urlHostname tunnelMsg.URL =
      (match urlHostname tunnelMsg.URL with
        | none => ""
        | some host => String.mk (host.data.takeWhile (fun ch => decide (ch ≠ '.')))) ∧
    (c.handleMessage urlHostname (Inbound.tunnelOpened (some tunnelMsg))).2.2 = Fate.returned := by
  refine ⟨?_, ?_, ?_, ?_, extractSubdomain_eq urlHostname tunnelMsg.URL, ?_⟩ <;>
    simp only [Client.handleMessage] <;> split <;> simp_all

/-- C7 as stated fails: a client whose subdomain is "myapp" receives a
`tunnel_opened` whose URL does not parse; the effective subdomain of that
URL is empty but the session's subdomain stays "myapp". -/
theorem C7_counterexample :
    extractSubdomain sampleHostname "://bad" = "" ∧
    (sampleClient.handleMessage sampleHostname
      (Inbound.tunnelOpened (some { sampleOpened with URL := "://bad" }))).1.subdomain = "myapp" := by
  decide

/-! ### URL() while not connected -/

/-- The assigned URL is written by `tunnel_opened` alone: every other step
(any other message, a transport failure with its reconnects, Start, Stop)
leaves what `URL()` returns unchanged, whether or not a connection is set. -/
theorem step_keeps_URL (urlHostname : String → Option String) (c : Client) (s : Step)
    (hs : ∀ m, s ≠ Step.message (Inbound.tunnelOpened (some m))) :
    (c.step urlHostname s).1.URL = c.URL := by
  unfold Client.URL
  cases s with
  | start o => exact (Start_fields c o).1
  | stop => exact (Stop_fields c).2.1
  | disconnect outs => exact (handleDisconnect_keeps outs c).2.2
  | message data =>
      cases data with
      | malformed => rfl
      | unknown t => rfl
      | tunnelOpened m =>
          cases m with
          | none => rfl
          | some m => exact absurd rfl (hs m)
      | request m =>
          cases m with
          | none => rfl
          | some m => rfl
      | error m =>
          cases m with
          | none => rfl
          | some m => exact (handleError_takeover c m.Code m.Message).1

/-- C8 fails on the code: after Start, a `tunnel_opened` for
`https://myapp.outray.dev`, Stop and the read error that follows, the client
is not connected and `URL()` still returns the assigned URL. -/
theorem C8_url_survives_disconnect :
    (sampleClient.run sampleHostname
      [Step.start (ConnectOutcome.connected 1 0),
       Step.message (Inbound.tunnelOpened (some sampleOpened)),
       Step.stop,
       Step.disconnect []]).IsConnected = false ∧
    (sampleClient.run sampleHostname
      [Step.start (ConnectOutcome.connected 1 0),
       Step.message (Inbound.tunnelOpened (some sampleOpened)),
       Step.stop,
       Step.disconnect []]).URL = "https://myapp.outray.dev" := by
  decide

/-! ### Base64 round trip -/

theorem decodeSextet_encodeSextet_fin :
    ∀ n : Fin 64, decodeSextet (encodeSextet n.val) = some n.val := by
  decide

theorem decodeSextet_encodeSextet (n : Nat) (h : n < 64) :
    decodeSextet (encodeSextet n) = some n :=
  decodeSextet_encodeSextet_fin ⟨n, h⟩

theorem decodeSextet_pad : decodeSextet '=' = none := by decide

theorem decodeChars_quantum (s0 s1 s2 s3 : Nat) (h0 : s0 < 64) (h1 : s1 < 64) (h2 : s2 < 64)
    (h3 : s3 < 64) (rest : List Char) (si : Nat) :
    decodeChars (encodeSextet s0 :: encodeSextet s1 :: encodeSextet s2 :: encodeSextet s3 :: rest)
        si [] =
      (match decodeChars rest (si + 1 + 1 + 1 + 1) [] with
        | Except.ok tl => Except.ok (quantumBytes [s0, s1, s2, s3] ++ tl)
        | Except.error e => Except.error e) := by
  simp [decodeChars, decodeSextet_encodeSextet, h0, h1, h2, h3]

theorem quantumBytes_three (a b c : Byte) :
    quantumBytes
      [(a.val * 65536 + b.val * 256 + c.val) / 262144 % 64,
       (a.val * 65536 + b.val * 256 + c.val) / 4096 % 64,
       (a.val * 65536 + b.val * 256 + c.val) / 64 % 64,
       (a.val * 65536 + b.val * 256 + c.val) % 64] = [a, b, c] := by
  have ha := a.isLt
  have hb := b.isLt
  have hc := c.isLt
  simp only [quantumBytes, List.getD_cons_zero, List.getD_cons_succ, List.length_cons,
    List.length_nil, toByte]
  simp only [List.take, List.cons.injEq, and_true]
  refine ⟨?_, ?_, ?_⟩ <;> apply Fin.ext <;> simp only <;> omega

theorem quantumBytes_two (a b : Byte) :
    quantumBytes
      [(a.val * 65536 + b.val * 256) / 262144 % 64,
       (a.val * 65536 + b.val * 256) / 4096 % 64,
       (a.val * 65536 + b.val * 256) / 64 % 64] = [a, b] := by
  have ha := a.isLt
  have hb := b.isLt
  simp only [quantumBytes, List.getD_cons_zero, List.getD_cons_succ, List.length_cons,
    List.length_nil, toByte, List.getD_nil]
  simp only [List.take, List.cons.injEq, and_true]
  refine ⟨?_, ?_⟩ <;> apply Fin.ext <;> simp only <;> omega

theorem quantumBytes_one (a : Byte) :
    quantumBytes [(a.val * 65536) / 262144 % 64, (a.val * 65536) / 4096 % 64] = [a] := by
  have ha := a.isLt
  simp only [quantumBytes, List.getD_cons_zero, List.getD_cons_succ, List.length_cons,
    List.length_nil, toByte, List.getD_nil]
  simp only [List.take, List.cons.injEq, and_true]
  apply Fin.ext
  simp only
  omega

theorem decodeChars_encodeChars (src : List Byte) :
    ∀ si : Nat, decodeChars (encodeChars src) si [] = Except.ok src := by
  induction src using encodeChars.induct with
  | case1 => intro si; rfl
  | case2 a =>
      intro si
      have h0 : (a.val * 65536) / 262144 % 64 < 64 := Nat.mod_lt _ (by decide)
      have h1 : (a.val * 65536) / 4096 % 64 < 64 := Nat.mod_lt _ (by decide)
      have hq := quantumBytes_one a
      simp [encodeChars, decodeChars, decodeSextet_encodeSextet, h0, h1, decodeSextet_pad,
        skipNewlines, finishPadding, hq]
  | case3 a b =>
      intro si
      have h0 : (a.val * 65536 + b.val * 256) / 262144 % 64 < 64 := Nat.mod_lt _ (by decide)
      have h1 : (a.val * 65536 + b.val * 256) / 4096 % 64 < 64 := Nat.mod_lt _ (by decide)
      have h2 : (a.val * 65536 + b.val * 256) / 64 % 64 < 64 := Nat.mod_lt _ (by decide)
      have hq := quantumBytes_two a b
      simp [encodeChars, decodeChars, decodeSextet_encodeSextet, h0, h1, h2, decodeSextet_pad,
        skipNewlines, finishPadding, hq]
  | case4 a b c rest ih =>
      intro si
      have h0 : (a.val * 65536 + b.val * 256 + c.val) / 262144 % 64 < 64 :=
        Nat.mod_lt _ (by decide)
      have h1 : (a.val * 65536 + b.val * 256 + c.val) / 4096 % 64 < 64 := Nat.mod_lt _ (by decide)
      have h2 : (a.val * 65536 + b.val * 256 + c.val) / 64 % 64 < 64 := Nat.mod_lt _ (by decide)
      have h3 : (a.val * 65536 + b.val * 256 + c.val) % 64 < 64 := Nat.mod_lt _ (by decide)
      rw [encodeChars, decodeChars_quantum _ _ _ _ h0 h1 h2 h3, ih, quantumBytes_three]
      rfl

/-- Decoding an encoded byte string gives the bytes back. -/
theorem DecodeString_EncodeToString (src : List Byte) :
    DecodeString (EncodeToString src) = Except.ok src := by
  simp [DecodeString, EncodeToString, decodeChars_encodeChars]

theorem EncodeToString_eq_empty (src : List Byte) : EncodeToString src = "" ↔ src = [] := by
  constructor
  · intro h
    cases src with
    | nil => rfl
    | cons a rest =>
        have hd : (EncodeToString (a :: rest)).data = [] := by rw [h]
        cases rest with
        | nil => simp [EncodeToString, encodeChars] at hd
        | cons b rest2 =>
            cases rest2 with
            | nil => simp [EncodeToString, encodeChars] at hd
            | cons c rest3 => simp [EncodeToString, encodeChars] at hd
  · intro h
    rw [h]
    rfl

/-! ### The request proxy -/

theorem sentMessages_append (a b : List Event) :
    sentMessages (a ++ b) = sentMessages a ++ sentMessages b := by
  induction a with
  | nil => rfl
  | cons e rest ih => cases e <;> simp [sentMessages, ih]

theorem requestReports_append (a b : List Event) :
    requestReports (a ++ b) = requestReports a ++ requestReports b := by
  induction a with
  | nil => rfl
  | cons e rest ih => cases e <;> simp [requestReports, ih]

theorem sendMessage_sent (c : Client) (m : responseMessage) :
    sentMessages (c.sendMessage m) = [m] ∧ requestReports (c.sendMessage m) = [] := by
  unfold Client.sendMessage
  cases c.conn <;> simp [sentMessages, requestReports]

theorem sendErrorResponse_sent (c : Client) (requestID : String) (statusCode : Int)
    (message : String) :
    (∃ m, sentMessages (c.sendErrorResponse requestID statusCode message) = [m] ∧
      m.MsgType = "response" ∧ m.RequestID = requestID ∧ m.StatusCode = statusCode ∧
      m.Body = EncodeToString (stringBytes message)) ∧
    requestReports (c.sendErrorResponse requestID statusCode message) = [] := by
  unfold Client.sendErrorResponse
  exact ⟨⟨_, (sendMessage_sent c _).1, rfl, rfl, rfl, rfl⟩, (sendMessage_sent c _).2⟩

theorem hook_sent (b : Bool) (info : RequestInfo) :
    sentMessages (if b then [Event.onRequest info] else []) = [] ∧
    requestReports (if b then [Event.onRequest info] else []) = (if b then [info] else []) := by
  cases b <;> simp [sentMessages, requestReports]

theorem handleRequest_decode_error (env : ProxyEnv) (c : Client) (req : requestMessage) (e : Nat)
    (hd : decodeBody req.Body = Except.error e) :
    c.handleRequest env req =
      c.sendErrorResponse req.RequestID 502 ("Failed to decode body: " ++ corruptInputText e) := by
  unfold Client.handleRequest
  simp only [hd]

theorem handleRequest_build_error (env : ProxyEnv) (c : Client) (req : requestMessage)
    (body : Option (List Byte)) (err : String)
    (hd : decodeBody req.Body = Except.ok body)
    (hn : env.newRequestError req.Method (c.localURL req) = some err) :
    c.handleRequest env req =
      c.sendErrorResponse req.RequestID 502 ("Failed to create request: " ++ err) := by
  unfold Client.handleRequest
  simp only [hd, hn]

theorem handleRequest_do_error (env : ProxyEnv) (c : Client) (req : requestMessage)
    (body : Option (List Byte)) (err : String) (elapsed : Duration)
    (hd : decodeBody req.Body = Except.ok body)
    (hn : env.newRequestError req.Method (c.localURL req) = none)
    (hr : env.roundTrip (c.localRequest env req body) = LocalOutcome.doFailed err elapsed) :
    c.handleRequest env req =
      (if c.options.OnRequest then
        [Event.onRequest { Method := req.Method, Path := req.Path, StatusCode := 502,
                           Elapsed := elapsed, Error := err }]
       else []) ++
      c.sendErrorResponse req.RequestID 502 ("Bad Gateway: " ++ err) := by
  unfold Client.handleRequest
  simp only [hd, hn, hr]

theorem handleRequest_read_error (env : ProxyEnv) (c : Client) (req : requestMessage)
    (body : Option (List Byte)) (resp : LocalResponse) (err : String)
    (hd : decodeBody req.Body = Except.ok body)
    (hn : env.newRequestError req.Method (c.localURL req) = none)
    (hr : env.roundTrip (c.localRequest env req body) = LocalOutcome.readFailed resp err) :
    c.handleRequest env req =
      c.sendErrorResponse req.RequestID 502 ("Failed to read response: " ++ err) := by
  unfold Client.handleRequest
  simp only [hd, hn, hr]

theorem handleRequest_success (env : ProxyEnv) (c : Client) (req : requestMessage)
    (body : Option (List Byte)) (resp : LocalResponse) (bodyBytes : List Byte) (elapsed : Duration)
    (hd : decodeBody req.Body = Except.ok body)
    (hn : env.newRequestError req.Method (c.localURL req) = none)
    (hr : env.roundTrip (c.localRequest env req body) = LocalOutcome.ok resp bodyBytes elapsed) :
    c.handleRequest env req =
      (if c.options.OnRequest then
        [Event.onRequest { Method := req.Method, Path := req.Path,
                           StatusCode := resp.StatusCode, Elapsed := elapsed, Error := "" }]
       else []) ++
      c.sendMessage (successResponse env req resp bodyBytes) := by
  unfold Client.handleRequest
  simp only [hd, hn, hr]

/-- C3: whatever the request and whatever the outcome of the local call,
`handleRequest` hands exactly one message to the send step; it is a
`response` with the request's requestId; its status is 502 when the body
does not decode, when the local request cannot be built, when the local call
fails and when reading the local response body fails, and the local status
otherwise. -/
theorem C3_one_response_per_request (env : ProxyEnv) (c : Client) (req : requestMessage) :
    ∃ m, sentMessages (c.handleRequest env req) = [m] ∧
      m.MsgType = "response" ∧
      m.RequestID = req.RequestID ∧
      (∀ e, decodeBody req.Body = Except.error e → m.StatusCode = 502) ∧
      (∀ body err, decodeBody req.Body = Except.ok body →
        env.newRequestError req.Method (c.localURL req) = some err → m.StatusCode = 502) ∧
      (∀ body err elapsed, decodeBody req.Body = Except.ok body →
        env.newRequestError req.Method (c.localURL req) = none →
        env.roundTrip (c.localRequest env req body) = LocalOutcome.doFailed err elapsed →
        m.StatusCode = 502) ∧
      (∀ body resp err, decodeBody req.Body = Except.ok body →
        env.newRequestError req.Method (c.localURL req) = none →
        env.roundTrip (c.localRequest env req body) = LocalOutcome.readFailed resp err →
        m.StatusCode = 502) ∧
      (∀ body resp bodyBytes elapsed, decodeBody req.Body = Except.ok body →
        env.newRequestError req.Method (c.localURL req) = none →
        env.roundTrip (c.localRequest env req body) = LocalOutcome.ok resp bodyBytes elapsed →
        m.StatusCode = resp.StatusCode) := by
  cases hd : decodeBody req.Body with
  | error e =>
      obtain ⟨⟨m, hm, ht, hid, hst, _⟩, _⟩ :=
        sendErrorResponse_sent c req.RequestID 502 ("Failed to decode body: " ++ corruptInputText e)
      rw [handleRequest_decode_error env c req e hd]
      refine ⟨m, hm, ht, hid, ?_, ?_, ?_, ?_, ?_⟩ <;> intros <;> simp_all
  | ok body =>
      cases hn : env.newRequestError req.Method (c.localURL req) with
      | some err =>
          obtain ⟨⟨m, hm, ht, hid, hst, _⟩, _⟩ :=
            sendErrorResponse_sent c req.RequestID 502 ("Failed to create request: " ++ err)
          rw [handleRequest_build_error env c req body err hd hn]
          refine ⟨m, hm, ht, hid, ?_, ?_, ?_, ?_, ?_⟩ <;> intros <;> simp_all
      | none =>
          cases hr : env.roundTrip (c.localRequest env req body) with
          | doFailed err elapsed =>
              obtain ⟨⟨m, hm, ht, hid, hst, _⟩, _⟩ :=
                sendErrorResponse_sent c req.RequestID 502 ("Bad Gateway: " ++ err)
              rw [handleRequest_do_error env c req body err elapsed hd hn hr]
              have hm2 : sentMessages
                  ((if c.options.OnRequest then
                    [Event.onRequest { Method := req.Method, Path := req.Path, StatusCode := 502,
                                       Elapsed := elapsed, Error := err }]
                   else []) ++
                  c.sendErrorResponse req.RequestID 502 ("Bad Gateway: " ++ err)) = [m] := by
                simp only [sentMessages_append, (hook_sent _ _).1, List.nil_append, hm]
              refine ⟨m, hm2, ht, hid, ?_, ?_, ?_, ?_, ?_⟩ <;> intros <;> simp_all
          | readFailed resp err =>
              obtain ⟨⟨m, hm, ht, hid, hst, _⟩, _⟩ :=
                sendErrorResponse_sent c req.RequestID 502 ("Failed to read response: " ++ err)
              rw [handleRequest_read_error env c req body resp err hd hn hr]
              refine ⟨m, hm, ht, hid, ?_, ?_, ?_, ?_, ?_⟩ <;> intros <;> simp_all
          | ok resp bodyBytes elapsed =>
              rw [handleRequest_success env c req body resp bodyBytes elapsed hd hn hr]
              have hm2 : sentMessages
                  ((if c.options.OnRequest then
                    [Event.onRequest { Method := req.Method, Path := req.Path,
                                       StatusCode := resp.StatusCode, Elapsed := elapsed,
                                       Error := "" }]
                   else []) ++
                  c.sendMessage (successResponse env req resp bodyBytes)) =
                  [successResponse env req resp bodyBytes] := by
                simp only [sentMessages_append, (hook_sent _ _).1, List.nil_append,
                  (sendMessage_sent c _).1]
              refine ⟨successResponse env req resp bodyBytes, hm2, rfl, rfl, ?_, ?_, ?_, ?_, ?_⟩ <;>
                intros <;> simp_all [successResponse]

/-- The per-request hook over the failure paths: it is called (once, with
status 502 and the error text) only when the local call itself fails; a body
that does not decode, a request that cannot be built and a response body
that cannot be read produce no hook call. -/
theorem handleRequest_failure_reports (env : ProxyEnv) (c : Client) (req : requestMessage) :
    (∀ e, decodeBody req.Body = Except.error e → requestReports (c.handleRequest env req) = []) ∧
    (∀ body err, decodeBody req.Body = Except.ok body →
      env.newRequestError req.Method (c.localURL req) = some err →
      requestReports (c.handleRequest env req) = []) ∧
    (∀ body err elapsed, decodeBody req.Body = Except.ok body →
      env.newRequestError req.Method (c.localURL req) = none →
      env.roundTrip (c.localRequest env req body) = LocalOutcome.doFailed err elapsed →
      requestReports (c.handleRequest env req) =
        (if c.options.OnRequest then
          [{ Method := req.Method, Path := req.Path, StatusCode := 502, Elapsed := elapsed,
             Error := err }]
         else [])) ∧
    (∀ body resp err, decodeBody req.Body = Except.ok body →
      env.newRequestError req.Method (c.localURL req) = none →
      env.roundTrip (c.localRequest env req body) = LocalOutcome.readFailed resp err →
      requestReports (c.handleRequest env req) = []) := by
  refine ⟨?_, ?_, ?_, ?_⟩
  · intro e hd
    rw [handleRequest_decode_error env c req e hd]
    exact (sendErrorResponse_sent c _ _ _).2
  · intro body err hd hn
    rw [handleRequest_build_error env c req body err hd hn]
    exact (sendErrorResponse_sent c _ _ _).2
  · intro body err elapsed hd hn hr
    rw [handleRequest_do_error env c req body err elapsed hd hn hr, requestReports_append,
      (sendErrorResponse_sent c _ _ _).2, (hook_sent _ _).2, List.append_nil]
  · intro body resp err hd hn hr
    rw [handleRequest_read_error env c req body resp err hd hn hr]
    exact (sendErrorResponse_sent c _ _ _).2

/-- C4 fails on the code: with the per-request hook installed, a request whose
body is not base64 (`!!!`) and a request whose local response body cannot be
read are each answered with one 502 response, and the hook is not called. -/
theorem C4_failure_without_hook_call :
    sampleClient.options.OnRequest = true ∧
    requestReports (sampleClient.handleRequest sampleEnv { sampleRequest with Body := "!!!" }) = [] ∧
    (sentMessages (sampleClient.handleRequest sampleEnv
      { sampleRequest with Body := "!!!" })).map (fun m => m.StatusCode) = [502] ∧
    requestReports (sampleClient.handleRequest sampleEnv sampleRequest) = [] ∧
    (sentMessages (sampleClient.handleRequest sampleEnv sampleRequest)).map
      (fun m => m.StatusCode) = [502] := by
  decide

/-! ### The success path -/

theorem mapGet_mapSet {α : Type} (m : List (String × α)) (k key : String) (v : α) :
    mapGet (mapSet m k v) key = if k = key then some v else mapGet m key := by
  induction m with
  | nil => simp [mapSet, mapGet]
  | cons kv rest ih =>
      obtain ⟨k1, v1⟩ := kv
      by_cases h1 : k1 = k
      · subst h1
        by_cases h2 : k1 = key
        · simp [mapSet, mapGet, h2]
        · simp [mapSet, mapGet, h2]
      · by_cases h2 : k = key
        · subst h2
          rw [if_pos rfl] at ih
          simp [mapSet, mapGet, h1, ih]
        · rw [if_neg h2] at ih
          by_cases h3 : k1 = key
          · subst h3
            simp [mapSet, mapGet, h1, h2]
          · simp [mapSet, mapGet, h1, h2, h3, ih]

theorem foldl_mapSet_get (toLower : String → String) (key : String) (v : HeaderValue)
    (header : List (String × List String)) :
    ∀ (acc : List (String × HeaderValue)),
      (∀ kv ∈ header, toLower kv.1 = key → responseHeaderValue kv.2 = v) →
      ((∃ kv ∈ header, toLower kv.1 = key) ∨ mapGet acc key = some v) →
      mapGet
        (header.foldl (fun headers kv => mapSet headers (toLower kv.1) (responseHeaderValue kv.2))
          acc) key = some v := by
  induction header with
  | nil =>
      intro acc _ h
      rcases h with ⟨kv, hkv, _⟩ | h
      · cases hkv
      · exact h
  | cons kv rest ih =>
      intro acc hall h
      rw [List.foldl_cons]
      apply ih
      · exact fun kv' hkv' => hall kv' (List.mem_cons_of_mem _ hkv')
      · by_cases hrest : ∃ kv' ∈ rest, toLower kv'.1 = key
        · exact Or.inl hrest
        · right
          rw [mapGet_mapSet]
          by_cases hk : toLower kv.1 = key
          · rw [if_pos hk, hall kv (List.mem_cons_self _ _) hk]
          · rw [if_neg hk]
            rcases h with ⟨kv', hkv', hkey⟩ | h
            · rcases List.mem_cons.mp hkv' with heq | hmem
              · exact absurd (heq ▸ hkey) hk
              · exact absurd ⟨kv', hmem, hkey⟩ hrest
            · exact h

theorem foldl_mapSet_origin (toLower : String → String) (key : String) (v : HeaderValue)
    (header : List (String × List String)) :
    ∀ (acc : List (String × HeaderValue)),
      mapGet
        (header.foldl (fun headers kv => mapSet headers (toLower kv.1) (responseHeaderValue kv.2))
          acc) key = some v →
      (∃ kv ∈ header, toLower kv.1 = key ∧ responseHeaderValue kv.2 = v) ∨
        mapGet acc key = some v := by
  induction header with
  | nil => intro acc h; exact Or.inr h
  | cons kv rest ih =>
      intro acc h
      rw [List.foldl_cons] at h
      rcases ih _ h with ⟨kv', hkv', hk, hv⟩ | h'
      · exact Or.inl ⟨kv', List.mem_cons_of_mem _ hkv', hk, hv⟩
      · rw [mapGet_mapSet] at h'
        by_cases hk : toLower kv.1 = key
        · rw [if_pos hk] at h'
          exact Or.inl ⟨kv, List.mem_cons_self _ _, hk, Option.some.inj h'⟩
        · rw [if_neg hk] at h'
          exact Or.inr h'

theorem nodup_keys_unique (header : List (String × List String))
    (hmap : (header.map Prod.fst).Nodup) (k : String) (v1 v2 : List String)
    (h1 : (k, v1) ∈ header) (h2 : (k, v2) ∈ header) : v1 = v2 := by
  induction header with
  | nil => cases h1
  | cons kv rest ih =>
      rw [List.map_cons, List.nodup_cons] at hmap
      rcases List.mem_cons.mp h1 with e1 | m1
      · rcases List.mem_cons.mp h2 with e2 | m2
        · exact (Prod.mk.inj (e1.trans e2.symm)).2
        · exact absurd (List.mem_map.mpr ⟨(k, v2), m2, by rw [← e1]⟩) hmap.1
      · rcases List.mem_cons.mp h2 with e2 | m2
        · exact absurd (List.mem_map.mpr ⟨(k, v1), m1, by rw [← e2]⟩) hmap.1
        · exact ih hmap.2 m1 m2

/-- C9 (amended): for a request whose local call succeeds with status, header
map `resp.Header` (a Go map: keys pairwise distinct) and body bytes, the one
message `handleRequest` sends is a `response` with that status and the
request's requestId.  For each header name `k` whose lower-case form is
shared by no other name of the map, the key `lower(k)` holds the single
string when `k` has exactly one value and the list of all values in order
otherwise; every key of the message's header map is the lower-case form of
a name of `resp.Header` and holds the value built from that name.  The body
is the standard base64 encoding of the bytes when there are any (decoding it
gives the bytes back) and is omitted when there are none. -/
theorem C9_success_response (env : ProxyEnv) (c : Client) (req : requestMessage)
    (body : Option (List Byte)) (resp : LocalResponse) (bodyBytes : List Byte)
    (elapsed : Duration)
    (hd : decodeBody req.Body = Except.ok body)
    (hn : env.newRequestError req.Method (c.localURL req) = none)
    (hr : env.roundTrip (c.localRequest env req body) = LocalOutcome.ok resp bodyBytes elapsed)
    (hmap : (resp.Header.map Prod.fst).Nodup) :
    ∃ m, sentMessages (c.handleRequest env req) = [m] ∧
      m.MsgType = "response" ∧
      m.StatusCode = resp.StatusCode ∧
      m.RequestID = req.RequestID ∧
      (∀ k values, (k, values) ∈ resp.Header →
        (∀ k2 values2, (k2, values2) ∈ resp.Header → env.toLower k2 = env.toLower k → k2 = k) →
        (∀ x, values = [x] → mapGet m.Headers (env.toLower k) = some (HeaderValue.single x)) ∧
        (values.length ≠ 1 →
          mapGet m.Headers (env.toLower k) = some (HeaderValue.multi values))) ∧
      (∀ key v, mapGet m.Headers key = some v →
        ∃ k values, (k, values) ∈ resp.Header ∧ env.toLower k = key ∧
          v = responseHeaderValue values) ∧
      (bodyBytes ≠ [] →
        m.Body = EncodeToString bodyBytes ∧ DecodeString m.Body = Except.ok bodyBytes ∧
        m.wireBody = some (EncodeToString bodyBytes)) ∧
      (bodyBytes = [] → m.wireBody = none) := by
  rw [handleRequest_success env c req body resp bodyBytes elapsed hd hn hr]
  refine ⟨successResponse env req resp bodyBytes, ?_, rfl, rfl, rfl, ?_, ?_, ?_, ?_⟩
  · simp only [sentMessages_append, (hook_sent _ _).1, List.nil_append, (sendMessage_sent c _).1]
  · intro k values hk huniq
    have hget : mapGet (successResponse env req resp bodyBytes).Headers (env.toLower k) =
        some (responseHeaderValue values) := by
      apply foldl_mapSet_get
      · intro kv hkv hlow
        have hk2 : kv.1 = k := huniq kv.1 kv.2 hkv hlow
        have hv : kv.2 = values :=
          nodup_keys_unique resp.Header hmap k kv.2 values (by rw [← hk2]; exact hkv) hk
        rw [hv]
      · exact Or.inl ⟨(k, values), hk, rfl⟩
    constructor
    · intro x hx
      rw [hget, hx]
      rfl
    · intro hlen
      rw [hget]
      simp [responseHeaderValue, hlen]
  · intro key v hv
    rcases foldl_mapSet_origin env.toLower key v resp.Header [] hv with ⟨kv, hkv, hk, hval⟩ | h
    · exact ⟨kv.1, kv.2, hkv, hk, hval.symm⟩
    · simp [mapGet] at h
  · intro hne
    have hlen : bodyBytes.length > 0 := List.length_pos.mpr hne
    have hb : (successResponse env req resp bodyBytes).Body = EncodeToString bodyBytes := by
      simp [successResponse, hlen]
    refine ⟨hb, ?_, ?_⟩
    · rw [hb, DecodeString_EncodeToString]
    · have hne2 : EncodeToString bodyBytes ≠ "" := fun h =>
        hne ((EncodeToString_eq_empty bodyBytes).mp h)
      simp [responseMessage.wireBody, hb, hne2]
  · intro he
    simp [responseMessage.wireBody, successResponse, he]

/-- C9 (amended) at a concrete input: `GET /health` answered with
`200 {"status":"ok"}` gives one response with status 200 whose body is the
base64 text of the payload. -/
theorem C9_success_response_witness :
    ∃ m, sentMessages (sampleClient.handleRequest sampleEnvHealth sampleRequest) = [m] ∧
      m.StatusCode = 200 ∧ m.Body = "eyJzdGF0dXMiOiJvayJ9" ∧
      mapGet m.Headers "content-type" = some (HeaderValue.single "application/json") := by
  obtain ⟨m, h1, _, h3, _, h5, _, h7, _⟩ :=
    C9_success_response sampleEnvHealth sampleClient sampleRequest none
      { StatusCode := 200, Header := [("Content-Type", ["application/json"])] }
      [⟨123, by decide⟩, ⟨34, by decide⟩, ⟨115, by decide⟩, ⟨116, by decide⟩,
       ⟨97, by decide⟩, ⟨116, by decide⟩, ⟨117, by decide⟩, ⟨115, by decide⟩,
       ⟨34, by decide⟩, ⟨58, by decide⟩, ⟨34, by decide⟩, ⟨111, by decide⟩,
       ⟨107, by decide⟩, ⟨34, by decide⟩, ⟨125, by decide⟩] 5
      rfl rfl rfl (by decide)
  refine ⟨m, h1, h3, ?_, ?_⟩
  · rw [(h7 (by decide)).1]
    decide
  · have h := (h5 "Content-Type" ["application/json"] (by decide)
      (by
        intro k2 values2 hmem _
        have := List.mem_singleton.mp hmem
        exact (Prod.mk.inj this).1)).1 "application/json" rfl
    exact h

/-- C9 as stated fails: a local response with the header lines `a b: 1`,
`A B: 2`, `A B: 3` has the two header names `a b` (one value) and `A B` (two
values), which share the lower-case form `a b`.  Whichever of the two
entries the loop visits last wins: in one order the key `a b` holds the list
`2, 3` and the single value `1` of `a b` is lost, in the other it holds the
string `1` and the values of `A B` are lost. -/
theorem C9_counterexample :
    (sentMessages (sampleClient.handleRequest
        (sampleEnvHeaders [("a b", ["1"]), ("A B", ["2", "3"])]) sampleRequest)).map
      (fun m => mapGet m.Headers (lowerASCII "a b")) = [some (HeaderValue.multi ["2", "3"])] ∧
    (sentMessages (sampleClient.handleRequest
        (sampleEnvHeaders [("A B", ["2", "3"]), ("a b", ["1"])]) sampleRequest)).map
      (fun m => mapGet m.Headers (lowerASCII "A B")) = [some (HeaderValue.single "1")] := by
  decide

end Outray
